import Mathlib

/-!
Shallow embedding of the series-metadata inference engine of
`process_dicom.py` (the `gather_info` function and the helpers it uses),
together with theorems settling the frozen claims about it.

Conventions of the embedding:
* Python runtime values that flow through the record are modelled by the
  inductive type `Py` (`null` = Python `None`, `int`, `flt` for floats —
  modelled as rationals —, `str`, and `lst` for list/tuple values).
* A DICOM dataset, as far as `gather_info` reads it, is the structure
  `DFile`; an unreadable file (a failing `pydicom.dcmread`) is `none` in
  the series file list.  Fields that the code only ever uses through a
  fixed accessor pattern are given the corresponding Lean type
  (e.g. `Rows` is `Option Int`); fields whose raw value is copied into the
  output record are kept as `Py`.
* Filesystem interaction is abstracted at its natural boundary: the
  sibling `.bval` side-channel file appears as an already-parsed
  `Option (List Rat)` (`none` covers both absence and a parse failure,
  which the code swallows), and `pydicom.dcmread` failures are `none`
  entries of the file list.
-/

/-- A Python runtime value, as far as `gather_info` manipulates them. -/
inductive Py where
  | null : Py
  | int (n : Int) : Py
  | flt (q : Rat) : Py
  | str (s : String) : Py
  | lst (xs : List Py) : Py
deriving Repr

namespace Py

mutual
/-- Structural decidable equality for `Py` (the nested `List Py` makes the
automatic derivation unavailable, so it is spelled out). -/
def beq : Py → Py → Bool
  | .null, .null => true
  | .int a, .int b => a == b
  | .flt a, .flt b => a == b
  | .str a, .str b => a == b
  | .lst xs, .lst ys => beqList xs ys
  | _, _ => false

/-- Pointwise `beq` on lists of values. -/
def beqList : List Py → List Py → Bool
  | [], [] => true
  | x :: xs, y :: ys => beq x y && beqList xs ys
  | _, _ => false
end
end Py

mutual
theorem Py.beq_iff : ∀ a b : Py, Py.beq a b = true ↔ a = b
  | .null, .null => by simp [Py.beq]
  | .null, .int _ | .null, .flt _ | .null, .str _ | .null, .lst _ => by simp [Py.beq]
  | .int _, .null | .int _, .flt _ | .int _, .str _ | .int _, .lst _ => by simp [Py.beq]
  | .flt _, .null | .flt _, .int _ | .flt _, .str _ | .flt _, .lst _ => by simp [Py.beq]
  | .str _, .null | .str _, .int _ | .str _, .flt _ | .str _, .lst _ => by simp [Py.beq]
  | .lst _, .null | .lst _, .int _ | .lst _, .flt _ | .lst _, .str _ => by simp [Py.beq]
  | .int a, .int b => by simp [Py.beq]
  | .flt a, .flt b => by simp [Py.beq]
  | .str a, .str b => by simp [Py.beq]
  | .lst xs, .lst ys => by
      simpa [Py.beq] using Py.beqList_iff xs ys

theorem Py.beqList_iff : ∀ xs ys : List Py, Py.beqList xs ys = true ↔ xs = ys
  | [], [] => by simp [Py.beqList]
  | [], _ :: _ => by simp [Py.beqList]
  | _ :: _, [] => by simp [Py.beqList]
  | x :: xs, y :: ys => by
      simp [Py.beqList, Py.beq_iff x y, Py.beqList_iff xs ys]
end

instance : DecidableEq Py := fun a b =>
  decidable_of_iff (Py.beq a b = true) (Py.beq_iff a b)

namespace Py

/-- Python truthiness (`if value:`). -/
def truthy : Py → Bool
  | .null => false
  | .int n => n ≠ 0
  | .flt q => q ≠ 0
  | .str s => s ≠ ""
  | .lst xs => xs ≠ []

/-- `isinstance(v, (list, tuple))`. -/
def isList : Py → Bool
  | .lst _ => true
  | _ => false

/-- `v is None`. -/
def isNull : Py → Bool
  | .null => true
  | _ => false

/-- `isinstance(v, (int, float))`, together with the numeric value
(pydicom numeric wrapper classes subclass `int`/`float`, so they land in
the `int`/`flt` constructors). -/
def asNum : Py → Option Rat
  | .int n => some (n : Rat)
  | .flt q => some q
  | _ => none

/-- A flat value: a scalar, or a list whose elements are all scalars.
DICOM multi-valued attributes are flat lists of scalars, which is the
shape `gather_info`'s scalar-cleaning pass is written for. -/
def flat : Py → Bool
  | .lst xs => xs.all (fun x => !isList x)
  | _ => true

end Py

/-- `str.isdigit`-style parse of a digit run; `none` when the character
list is empty or contains a non-digit. -/
def parseDigits (cs : List Char) : Option Nat :=
  if cs = [] then none
  else
    cs.foldl
      (fun acc c =>
        match acc with
        | some n => if c.isDigit then some (n * 10 + (c.toNat - 48)) else none
        | none => none)
      (some 0)

/-- Python `int(s)` on a string: an optional sign followed by digits.
(The additional forms `int` accepts — surrounding whitespace and digit
group underscores — do not occur in the vendor codes this is applied to.) -/
def pyInt (s : String) : Option Int :=
  match s.data with
  | '-' :: rest => (parseDigits rest).map (fun n => -(n : Int))
  | '+' :: rest => (parseDigits rest).map (fun n => (n : Int))
  | cs => (parseDigits cs).map (fun n => (n : Int))

/-- Fraction-part accumulator for `pyFloat`: digits after the decimal
point, returned as (value scaled by 10^k, 10^k). -/
def parseFracDigits (cs : List Char) : Option (Nat × Nat) :=
  cs.foldl
    (fun acc c =>
      match acc with
      | some (n, d) => if c.isDigit then some (n * 10 + (c.toNat - 48), d * 10) else none
      | none => none)
    (some (0, 1))

/-- Python `float(s)` on a decimal literal `[sign] digits [. digits]`
with at least one digit.  (`float` additionally accepts exponents,
`inf`/`nan` and surrounding whitespace; b-values use plain decimals.) -/
def pyFloat (s : String) : Option Rat :=
  let core : List Char → Option Rat := fun cs =>
    match cs.splitOn '.' with
    | [intPart] =>
        (parseDigits intPart).map (fun n => (n : Rat))
    | [intPart, fracPart] =>
        if intPart = [] ∧ fracPart = [] then none
        else
          match parseFracDigits intPart, parseFracDigits fracPart with
          | some (ni, _), some (nf, df) =>
              if intPart = [] ∧ fracPart = [] then none
              else some ((ni : Rat) + (nf : Rat) / (df : Rat))
          | _, _ => none
    | _ => none
  match s.data with
  | '-' :: rest => (core rest).map (fun q => -q)
  | '+' :: rest => core rest
  | cs => core cs

/-- Python `float(v)` on a runtime value: numbers pass through, numeric
strings are parsed, everything else raises (`none`). -/
def pyFloatVal : Py → Option Rat
  | .int n => some (n : Rat)
  | .flt q => some q
  | .str s => pyFloat s
  | _ => none

/-- `pat.isPrefixOf s` on character lists, written out structurally. -/
def leadsWith : List Char → List Char → Bool
  | [], _ => true
  | _ :: _, [] => false
  | p :: ps, c :: cs => p == c && leadsWith ps cs

/-- Scan for `pat` at every suffix of `s`. -/
def containsSub (s pat : List Char) : Bool :=
  if leadsWith pat s then true
  else
    match s with
    | [] => false
    | _ :: cs => containsSub cs pat

/-- Python `pat in s` on strings (substring containment; the pattern is
a non-empty literal at every call site). -/
def strContains (s pat : String) : Bool :=
  containsSub s.data pat.data

/-- Python `s.upper()`. -/
def pyUpper (s : String) : String :=
  String.mk (s.data.map Char.toUpper)

/-- Python `s.lower()`. -/
def pyLower (s : String) : String :=
  String.mk (s.data.map Char.toLower)

/-- Python `s.startswith(pat)`. -/
def strStarts (s pat : String) : Bool :=
  leadsWith pat.data s.data

/-- `⌊q * p + 1/2⌋`, written out on the numerator and denominator
(`⌊(2 p num + den) / (2 den)⌋`) so that it evaluates by computation. -/
def scaledHalfUp (q : Rat) (p : Int) : Int :=
  Int.fdiv (2 * p * q.num + (q.den : Int)) (2 * (q.den : Int))

/-- Python `round(q, 2)`: the nearest multiple of `1/100`.  (Python
rounds the binary float half to even; the rational model rounds half up
— the two differ only at exact `.xx5` midpoints, below the granularity
of slice positions and not exercised by any claim.) -/
def round2 (q : Rat) : Rat :=
  mkRat (scaledHalfUp q 100) 100

/-- Insert a value into an insertion-ordered duplicate-free list — the
model of `set.add`; only cardinality, membership and `max` of these sets
are consumed. -/
def dedupInsert {α : Type} [DecidableEq α] (xs : List α) (x : α) : List α :=
  if x ∈ xs then xs else xs ++ [x]

/-- One DICOM dataset, restricted to the attributes `gather_info` reads.
Attributes accessed as `getattr(ds, name, default)` with a typed use are
`Option` of that type; attributes whose raw value is copied into the
output record (or range-checked with `isinstance`) are kept as `Py`.
An `Option Py` field is `some v` exactly when the tag is present
(`hasattr` / `(g, e) in ds`), with `v` its (possibly `None`) value. -/
structure DFile where
  /-- `Rows` (`getattr` default `None`). -/
  rows : Option Int := none
  /-- `Columns`. -/
  cols : Option Int := none
  /-- `ImageType` tokens after the list conversion of lines 303-307:
  each element is the token's `str()` image; absent attribute gives `[]`. -/
  imageType : List String := []
  /-- `AcquisitionMatrix` (a short integer vector). -/
  acquisitionMatrix : Option (List Int) := none
  /-- `(0051,100b)` Siemens matrix-size tag, as the `str()` image of its
  value. -/
  siemensMatrix : Option String := none
  /-- `(0019,100A)`: NumberOfImagesInMosaic on mosaic series, Siemens
  iPAT alias otherwise. -/
  tagMosaicSlices : Option Py := none
  /-- `ImagePositionPatient` (decimal-string triple, read as floats). -/
  imagePosition : Option (List Rat) := none
  /-- `InstanceNumber`. -/
  instanceNumber : Option Int := none
  /-- `(0020,9128)` TemporalPositionIndex. -/
  temporalPosition : Option Int := none
  /-- `DiffusionBValue` attribute (`some` iff `hasattr`). -/
  diffusionBValue : Option Py := none
  /-- `(0018,9087)` standard b-value tag. -/
  tagStdBValue : Option Py := none
  /-- `(0019,100c)` Siemens b-value tag. -/
  tagSiemensBValue : Option Py := none
  /-- Result of the `ucMultiSliceMode` regex search over the decoded
  `(0029,1020)` CSA header bytes: `some v` iff the header is present,
  decodes, and the pattern matches, with `v` the captured `\d+` group. -/
  csaUcMultiSliceMode : Option Nat := none
  /-- Result of the `lMultiBandFactor` regex search over the same CSA
  header block. -/
  csaLMultiBandFactor : Option Nat := none
  /-- `(0018,9159)` ParallelReductionFactorOutOfPlane. -/
  tagParRedOutOfPlane : Option Py := none
  /-- `(0051,1011)` Siemens PATModeText, as the `str()` image applied at
  both read sites. -/
  patModeText : Option String := none
  /-- `(0043,10B6)` GE multiband parameters. -/
  tagGEMultiband : Option Py := none
  /-- `(0018,9158)` ParallelReductionFactorInPlane. -/
  tagParRedInPlane : Option Py := none
  /-- `(0019,100B)` alternate Siemens private slot. -/
  tagSiemensAltB : Option Py := none
  /-- `(0043,1083)` GE ASSET/ARC factor. -/
  tagGEAsset : Option Py := none
  /-- `(2001,1008)` Philips SENSE factor. -/
  tagPhilipsSense : Option Py := none
  /-- `PixelSpacing` (decimal-string pair, read as floats). -/
  pixelSpacing : Option (List Rat) := none
  /-- `SliceThickness` (raw value, copied into the record). -/
  sliceThickness : Py := .null
  /-- `SeriesNumber` (raw value; `None` when absent). -/
  seriesNumber : Py := .null
  /-- `SeriesDescription` (`getattr` default `''`). -/
  seriesDescription : String := ""
  /-- `MRAcquisitionType` after `str()`. -/
  mrAcqType : String := ""
  /-- `SpacingBetweenSlices` (raw value). -/
  spacingBetweenSlices : Py := .null
  /-- `InversionTime` (raw value). -/
  inversionTime : Py := .null
  /-- `EchoTime` (raw value). -/
  echoTime : Py := .null
  /-- `RepetitionTime` (raw value). -/
  repetitionTime : Py := .null
  /-- `FlipAngle` (raw value). -/
  flipAngle : Py := .null
  /-- `(0018,1312)` InPlanePhaseEncodingDirection, as the `str()` image
  of its value (the code applies `str` before storing). -/
  tagPhaseEncDir : Option String := none
  /-- `NumberOfAverages` (raw value). -/
  numberOfAverages : Py := .null
  /-- `PixelBandwidth` (raw value). -/
  pixelBandwidth : Py := .null
  /-- `ReceivingCoilName` (raw value). -/
  receivingCoilName : Py := .null
  /-- `(0018,5100)` PatientPosition, as the `str()` image of its value. -/
  tagPatientPosition : Option String := none
  /-- `MagneticFieldStrength` (raw value). -/
  magneticFieldStrength : Py := .null
  /-- `(0018,0094)` PercentPhaseFieldOfView (raw value). -/
  tagPercentPhaseFOV : Option Py := none
  /-- `(0018,0093)` PercentSampling (raw value). -/
  tagPercentSampling : Option Py := none
  /-- `StudyDescription` after `str()` (`getattr` default `''`). -/
  studyDescription : String := ""
  /-- `SeriesDate` (`getattr` default `''`). -/
  seriesDate : String := ""
  /-- `SeriesTime` (`getattr` default `''`). -/
  seriesTime : String := ""
deriving Repr, DecidableEq

/-- The whole input of one `gather_info` call: the ordered series file
list (`none` entries are files `pydicom.dcmread` fails on — the cache
returns `None` for them) and the parsed sibling `.bval` file (`none`:
absent, unreadable, or a token fails `float`; the code swallows those). -/
structure SeriesInput where
  files : List (Option DFile)
  bvalSibling : Option (List Rat) := none
deriving Repr, DecidableEq

/-- Lines 301-310: `is_mosaic = any('MOSAIC' in str(item).upper() for
item in image_type_list)`. -/
def isMosaic (ds : DFile) : Bool :=
  ds.imageType.any (fun t => strContains (pyUpper t) "MOSAIC")

/-- Lines 334-347: mosaic fallback to the Siemens `(0051,100b)` tag when
the acquisition matrix is unusable.  Note the partial-mutation fidelity:
`rows = int(parts[0])` executes before `columns = int(parts[1])`, so if
only the second parse raises, `rows` has already been reassigned when the
exception is swallowed. -/
def mosaicSiemensFallback (rows cols : Option Int) (ds : DFile) :
    Option Int × Option Int :=
  match ds.siemensMatrix with
  | some s =>
      if strContains s "p*" then
        let parts := (s.data.filter (fun c => c ≠ 'p')).splitOn '*'
        if parts.length = 2 then
          match pyInt (String.mk (parts.getD 0 [])),
              pyInt (String.mk (parts.getD 1 [])) with
          | some r, some c => (some r, some c)
          | some r, none => (some r, cols)
          | none, _ => (rows, cols)
        else (rows, cols)
      else (rows, cols)
  | none => (rows, cols)

/-- Lines 316-347: mosaic dimension correction.  The guard
`acq_matrix and len(acq_matrix) >= 4` sends a present 4-element vector —
all-zero included — into the acquisition-matrix branch; the Siemens
string-tag fallback is reached only when the attribute is absent, empty
(falsy), or shorter than 4 elements. -/
def mosaicCorrect (rows cols : Option Int) (ds : DFile) :
    Option Int × Option Int :=
  match ds.acquisitionMatrix with
  | some am =>
      if 4 ≤ am.length then
        if 0 < am.getD 0 0 then
          (some (am.getD 0 0),
           some (if 0 < am.getD 3 0 then am.getD 3 0 else am.getD 0 0))
        else if 0 < am.getD 1 0 then
          (some (if 0 < am.getD 2 0 then am.getD 2 0 else am.getD 1 0),
           some (am.getD 1 0))
        else (rows, cols)
      else mosaicSiemensFallback rows cols ds
  | none => mosaicSiemensFallback rows cols ds

/-- Tally of `(rows, cols)` pairs in iteration (= insertion) order —
the model of the `dimension_counts` dict. -/
def tallyPairs (pairs : List (Int × Int)) : List ((Int × Int) × Nat) :=
  pairs.foldl
    (fun acc p =>
      if (acc.find? (fun e => e.1 = p)).isSome then
        acc.map (fun e => if e.1 = p then (e.1, e.2 + 1) else e)
      else acc ++ [(p, 1)])
    []

/-- Python `max(items, key=count)`: the first element of maximal count in
iteration order (`max` replaces the current best only on a strict
increase). -/
def firstMaxByCount (items : List ((Int × Int) × Nat)) : Option (Int × Int) :=
  match items with
  | [] => none
  | e :: rest =>
      some (rest.foldl (fun best x => if best.2 < x.2 then x else best) e).1

/-- Lines 356-365: the consensus sample index list —
`sample_size = max(10, min(100, n // 5))`; all indices when the sample
covers the list, else `int(i * (n / sample_size))` for `i <
sample_size`.  The float product is modelled by exact floor division. -/
def consensusIndices (n : Nat) : List Nat :=
  let sampleSize := max 10 (min 100 (n / 5))
  if n ≤ sampleSize then List.range n
  else (List.range sampleSize).map (fun i => i * n / sampleSize)

/-- Lines 373-392: the `(rows, cols)` pairs of the sampled files that
pass the truthiness (`rows_check and cols_check`) and range
(`32 ≤ · ≤ 8192`) checks. -/
def consensusSamples (files : List (Option DFile)) : List (Int × Int) :=
  (consensusIndices files.length).filterMap
    (fun idx =>
      if idx < files.length then
        match files.getD idx none with
        | some f =>
            match f.rows, f.cols with
            | some r, some c =>
                if r ≠ 0 ∧ c ≠ 0 ∧ 32 ≤ r ∧ r ≤ 8192 ∧ 32 ≤ c ∧ c ≤ 8192
                then some (r, c) else none
            | _, _ => none
        | none => none
      else none)

/-- Lines 352-422: the dimension consensus sampler (stage B, run only on
non-mosaic series).  The modal pair replaces `(rows, cols)`; with no
valid sampled pair the representative file's own dimensions are kept. -/
def consensusDims (rows cols : Option Int) (files : List (Option DFile)) :
    Option Int × Option Int :=
  match firstMaxByCount (tallyPairs (consensusSamples files)) with
  | some (r, c) => (some r, some c)
  | none => (rows, cols)

/-- The statistics collected in the single pass of lines 436-485. -/
structure Collected where
  slicePositions : List Rat
  instanceNumbers : List Int
  temporalPositions : List Int
  /-- `bvalue_to_files`: b-value → set of sampled file indices. -/
  bvalueFiles : List (Rat × List Nat)
deriving Repr, DecidableEq

/-- Line 442-443: `sample_size = min(500, n)`,
`indices = [i * n // sample_size for i in range(sample_size)]`
(`[0]` when the guard `sample_size > 0` fails). -/
def step1Indices (n : Nat) : List Nat :=
  let s := min 500 n
  if 0 < s then (List.range s).map (fun i => i * n / s) else [0]

/-- Lines 469-476 and 790-796: the b-value attribute chain
`DiffusionBValue` / `(0018,9087)` / `(0019,100c)`. -/
def fileBval (f : DFile) : Option Py :=
  match f.diffusionBValue with
  | some v => some v
  | none =>
      match f.tagStdBValue with
      | some v => some v
      | none => f.tagSiemensBValue

/-- The successfully `float`-ed b-value of one file (`if bval is not
None: try: float(bval)`, parse failures swallowed). -/
def fileBvalFloat (f : DFile) : Option Rat :=
  match fileBval f with
  | some v => if v.isNull then none else pyFloatVal v
  | none => none

/-- Add one sampled file's attributes to the running statistics
(lines 446-485, loop body). -/
def collectFile (c : Collected) (idx : Nat) (f : DFile) : Collected :=
  let c :=
    match f.imagePosition with
    | some l =>
        if l ≠ [] ∧ 3 ≤ l.length then
          { c with slicePositions :=
              dedupInsert c.slicePositions (round2 (l.getD 2 0)) }
        else c
    | none => c
  let c :=
    match f.instanceNumber with
    | some v => { c with instanceNumbers := dedupInsert c.instanceNumbers v }
    | none => c
  let c :=
    match f.temporalPosition with
    | some v =>
        { c with temporalPositions := dedupInsert c.temporalPositions v }
    | none => c
  match fileBvalFloat f with
  | some q =>
      let upd :=
        if (c.bvalueFiles.find? (fun e => e.1 = q)).isSome then
          c.bvalueFiles.map
            (fun e => if e.1 = q then (e.1, dedupInsert e.2 idx) else e)
        else c.bvalueFiles ++ [(q, [idx])]
      { c with bvalueFiles := upd }
  | none => c

/-- Lines 441-485: the single statistics pass over up to 500 evenly
spaced files (unreadable files are skipped by the cache returning
`None`). -/
def collectStats (files : List (Option DFile)) : Collected :=
  (step1Indices files.length).foldl
    (fun c idx =>
      if idx < files.length then
        match files.getD idx none with
        | some f => collectFile c idx f
        | none => c
      else c)
    ⟨[], [], [], []⟩

/-- Lines 487-495: resolve the base `z_dim` from the collected
statistics when the mosaic attribute did not already supply one. -/
def zFromCollected (c : Collected) (n : Nat) : Int :=
  if 0 < c.slicePositions.length then c.slicePositions.length
  else if 0 < c.instanceNumbers.length ∧ c.instanceNumbers.length ≤ n then
    c.instanceNumbers.length
  else n

/-- Lines 562-571 (multiband priority 3): parse the `(0051,1011)` vendor
text code — only an `'s'` prefix (slice acceleration) is accepted; a
`'p'` prefix (in-plane) is not parsed here. -/
def mbFromPatText (ds : DFile) : Option Rat :=
  match ds.patModeText with
  | some s =>
      if strStarts s "s" ∧ 1 < s.length then
        match pyInt (s.drop 1) with
        | some v => if 1 ≤ v then some (v : Rat) else none
        | none => none
      else none
  | none => none

/-- Lines 573-585 (multiband priority 4): the GE `(0043,10B6)` numeric
array — truthy value, first element when a list, `isinstance` numeric and
`≥ 1`. -/
def mbFromGE (ds : DFile) : Option Rat :=
  match ds.tagGEMultiband with
  | some mb =>
      if mb.truthy then
        let v : Py :=
          match mb with
          | .lst (x :: _) => x
          | other => other
        match v.asNum with
        | some q => if 1 ≤ q then some q else none
        | none => none
      else none
  | none => none

/-- Lines 526-539 (multiband priority 1): the `ucMultiSliceMode` value
extracted from the CSA header, accepted when `≥ 1`. -/
def mbFromCsaMode (ds : DFile) : Option Rat :=
  match ds.csaUcMultiSliceMode with
  | some v => if 1 ≤ v then some (v : Rat) else none
  | none => none

/-- Lines 541-549 (multiband priority 1 fallback): the CSA
`lMultiBandFactor` value, accepted when `≥ 1`. -/
def mbFromCsaBand (ds : DFile) : Option Rat :=
  match ds.csaLMultiBandFactor with
  | some v => if 1 ≤ v then some (v : Rat) else none
  | none => none

/-- Lines 553-557 (multiband priority 2): the standard `(0018,9159)`
ParallelReductionFactorOutOfPlane attribute — `isinstance` numeric and
`≥ 1`. -/
def mbFromStdTag (ds : DFile) : Option Rat :=
  match ds.tagParRedOutOfPlane with
  | some p =>
      match p.asNum with
      | some q => if 1 ≤ q then some q else none
      | none => none
  | none => none

/-- Lines 522-587: the multiband (through-plane) factor — CSA
`ucMultiSliceMode`, then CSA `lMultiBandFactor`, then `(0018,9159)`,
then the `'s'`-prefixed vendor text code, then the GE array; each source
consulted only while the factor is still unresolved
(`if multiband_factor is None and ...`). -/
def multibandFactor (ds : DFile) : Option Rat :=
  let mb : Option Rat := mbFromCsaMode ds
  let mb : Option Rat :=
    match mb with
    | some m => some m
    | none => mbFromCsaBand ds
  let mb : Option Rat :=
    match mb with
    | some m => some m
    | none => mbFromStdTag ds
  let mb : Option Rat :=
    match mb with
    | some m => some m
    | none => mbFromPatText ds
  match mb with
  | some m => some m
  | none => mbFromGE ds

/-- Lines 592-604 (in-plane priority 1): the `'p'`-prefixed vendor text
code, accepted in `[1, 16]`. -/
def ipFromPatText (ds : DFile) : Option Rat :=
  match ds.patModeText with
  | some s =>
      if strStarts s "p" ∧ 1 < s.length then
        match pyInt (s.drop 1) with
        | some v => if 1 ≤ v ∧ v ≤ 16 then some (v : Rat) else none
        | none => none
      else none
  | none => none

/-- Numeric-in-`[1,16]` acceptance shared by the in-plane tag sources. -/
def ipRange (v : Py) : Option Rat :=
  match v.asNum with
  | some q => if 1 ≤ q ∧ q ≤ 16 then some q else none
  | none => none

/-- Lines 613-624 (in-plane priority 3): the Siemens private slots,
consulted only on non-mosaic series; note the `if A in ds: … elif B in
ds: …` shape — when `(0019,100A)` is present its range check is final and
`(0019,100B)` is not consulted. -/
def ipFromSiemensPrivate (ds : DFile) (isMos : Bool) : Option Rat :=
  if isMos then none
  else
    match ds.tagMosaicSlices with
    | some v => ipRange v
    | none =>
        match ds.tagSiemensAltB with
        | some v => ipRange v
        | none => none

/-- Lines 606-611 (in-plane priority 2): the standard `(0018,9158)`
ParallelReductionFactorInPlane attribute. -/
def ipFromStdTag (ds : DFile) : Option Rat :=
  match ds.tagParRedInPlane with
  | some v => ipRange v
  | none => none

/-- Lines 626-630 (in-plane priority 4): the GE `(0043,1083)` ASSET/ARC
factor. -/
def ipFromGEAsset (ds : DFile) : Option Rat :=
  match ds.tagGEAsset with
  | some v => ipRange v
  | none => none

/-- Lines 632-636 (in-plane priority 5): the Philips `(2001,1008)`
SENSE factor. -/
def ipFromPhilips (ds : DFile) : Option Rat :=
  match ds.tagPhilipsSense with
  | some v => ipRange v
  | none => none

/-- Lines 589-638: the in-plane acceleration factor — `'p'` vendor text
code, then `(0018,9158)`, then the Siemens private pair (non-mosaic
only), then GE `(0043,1083)`, then Philips `(2001,1008)`. -/
def inplaneAccelFactor (ds : DFile) (isMos : Bool) : Option Rat :=
  let ip := ipFromPatText ds
  let ip : Option Rat :=
    match ip with
    | some v => some v
    | none => ipFromStdTag ds
  let ip : Option Rat :=
    match ip with
    | some v => some v
    | none => ipFromSiemensPrivate ds isMos
  let ip : Option Rat :=
    match ip with
    | some v => some v
    | none => ipFromGEAsset ds
  match ip with
  | some v => some v
  | none => ipFromPhilips ds

/-- Python `a > b` for an `int` left operand against a runtime value:
`some` of the comparison when `b` is numeric, `none` for the `TypeError`
a non-numeric operand raises. -/
def pyGtNum (a : Int) (b : Py) : Option Bool :=
  (b.asNum).map (fun q => decide ((a : Rat) > q))

/-- Python `max(1, z)`: `z` itself when `1 < z`, else the literal `1`
(ties return the first argument); `none` for the `TypeError` on a
non-numeric `z`. -/
def pyMaxOne (z : Py) : Option Py :=
  (z.asNum).map (fun q => if 1 < q then z else .int 1)

/-- Python `a // b` on numeric runtime values: floor division, `int`
when both operands are `int`s, `float` otherwise; `none` models both the
`TypeError` of a non-numeric operand and the `ZeroDivisionError`. -/
def pyFloorDiv (a b : Py) : Option Py :=
  match a, b with
  | .int x, .int y => if y = 0 then none else some (.int (Int.fdiv x y))
  | _, _ =>
      match a.asNum, b.asNum with
      | some x, some y =>
          if y = 0 then none else some (.flt ((⌊x / y⌋ : Int) : Rat))
      | _, _ => none

/-- Python `v > (lit : int)` for a numeric runtime value (used where the
operand is numeric by construction, e.g. `num_volumes > 1`). -/
def pyNumGtLit (v : Py) (lit : Int) : Bool :=
  match v.asNum with
  | some q => decide (q > (lit : Rat))
  | none => false

/-- Evenly spaced sample indices with cap `cap` (the
`sample_size = min(cap, n); [i * n // sample_size for i in
range(sample_size)]` pattern of lines 442-443, 779-780 and 870-871,
including the degenerate `[0]` when the guard `sample_size > 0` fails). -/
def evenIndices (cap n : Nat) : List Nat :=
  let s := min cap n
  if 0 < s then (List.range s).map (fun i => i * n / s) else [0]

/-- Lines 778-807: re-sample up to 100 files for b-values when the
step-1 collection found none — returns the insertion-ordered set of
distinct b-values and the number of sampled files with b-value 0. -/
def resampleBvals (files : List (Option DFile)) : List Rat × Nat :=
  (evenIndices 100 files.length).foldl
    (fun acc idx =>
      if idx < files.length then
        match files.getD idx none with
        | some f =>
            match fileBvalFloat f with
            | some q =>
                (dedupInsert acc.1 q, if q = 0 then acc.2 + 1 else acc.2)
            | none => acc
        | none => acc
      else acc)
    ([], 0)

/-- Lines 813-836: the full-series b-value scan (every file read
directly; unreadable files are skipped by the `except: continue`). -/
def fullScanBvals (files : List (Option DFile)) : List Rat × Nat :=
  files.foldl
    (fun acc f? =>
      match f? with
      | some f =>
          match fileBvalFloat f with
          | some q =>
              (dedupInsert acc.1 q, if q = 0 then acc.2 + 1 else acc.2)
          | none => acc
      | none => acc)
    ([], 0)

/-- Lines 810-858: the diffusion branch of the volume resolver.  `some
(num_volumes, num_b0s)` when any b-value was found (the series is then
marked diffusion), `none` otherwise. -/
def diffusionEstimate (files : List (Option DFile)) (n : Nat)
    (stats : Collected) : Option (Py × Nat) :=
  let seed : List Rat × Nat :=
    if stats.bvalueFiles ≠ [] then
      (stats.bvalueFiles.map Prod.fst,
       (((stats.bvalueFiles.find? (fun e => e.1 = 0)).map
           (fun e => e.2.length)).getD 0))
    else resampleBvals files
  let uniqueB := seed.1
  let b0Count := seed.2
  if uniqueB ≠ [] then
    if n ≤ 500 then
      let full := fullScanBvals files
      let nb0 : Nat :=
        if 0 < full.2 then
          max 1 (full.2 / max 1 (n / max 1 full.1.length))
        else 0
      some (.int full.1.length, nb0)
    else
      let nb0 : Nat :=
        if 0 < b0Count then
          max 1 (b0Count / max 1 (n / max 1 uniqueB.length))
        else 0
      some (.int uniqueB.length, nb0)
  else none

/-- Lines 863-888: the fMRI branch re-collects instance numbers and
temporal positions over up to 200 files.  The local sets shadow the
step-1 collection and are freshly initialized to empty, so the guard
`if not temporal_positions and not instance_numbers:` always holds and
the re-sampling always runs. -/
def fmriResample (files : List (Option DFile)) : List Int × List Int :=
  (evenIndices 200 files.length).foldl
    (fun acc idx =>
      if idx < files.length then
        match files.getD idx none with
        | some f =>
            let acc1 : List Int × List Int :=
              match f.instanceNumber with
              | some v => (dedupInsert acc.1 v, acc.2)
              | none => acc
            match f.temporalPosition with
            | some v => (acc1.1, dedupInsert acc1.2 v)
            | none => acc1
        | none => acc
      else acc)
    ([], [])

/-- Python `max` of a set of integers. -/
def listMaxInt : List Int → Option Int
  | [] => none
  | x :: xs => some (xs.foldl max x)

/-- Line 861: the functional-imaging keyword test on the series
description. -/
def isFunctionalDesc (desc : String) : Bool :=
  strContains (pyLower desc) "fmri" || strContains (pyLower desc) "functional" ||
    strContains (pyLower desc) "bold"

/-- Lines 890-901: volume estimate of the fMRI branch.  `≥ 2` distinct
temporal positions win; otherwise the branch fires only when the COUNT
of distinct collected instance numbers exceeds `z_dim`
(`len(instance_numbers) > z_dim`), and then divides the MAXIMUM instance
number by `max(1, z_dim)`, accepting the quotient only when `> 1`.  A
`TypeError` from comparing a non-numeric mosaic-seeded `z_dim` is
swallowed by the enclosing `except` (line 903) with nothing assigned. -/
def fmriEstimate (files : List (Option DFile)) (n : Nat) (zDim : Py) :
    Option Py :=
  let sets := fmriResample files
  if 1 < sets.2.length then some (.int sets.2.length)
  else
    match pyGtNum sets.1.length zDim with
    | some true =>
        let maxI : Int :=
          match listMaxInt sets.1 with
          | some m => m
          | none => (n : Int)
        match pyMaxOne zDim with
        | some m =>
            match pyFloorDiv (.int maxI) m with
            | some ev => if pyNumGtLit ev 1 then some ev else none
            | none => none
        | none => none
    | some false => none
    | none => none

/-- Lines 730-904: the volume/slice-count resolver (stage C, step 2).
Returns `(num_volumes, num_b0s, is_diffusion_mri, z_dim)`; the sibling
`.bval` file wins, else b-value detection, else the fMRI keywords. -/
def volumeResolve (inp : SeriesInput) (ds : DFile) (isMos : Bool)
    (stats : Collected) (zDim : Py) :
    Option Py × Option Nat × Bool × Py :=
  let n := inp.files.length
  match inp.bvalSibling with
  | some vals =>
      let nv := vals.length
      let nb0 := vals.countP (fun b => b = 0)
      let zDim' :=
        if 1 < nv ∧ nv < n ∧ ¬isMos then
          let c := n / nv
          if 0 < c then Py.int (c : Int) else zDim
        else zDim
      (some (.int (nv : Int)), some nb0, true, zDim')
  | none =>
      if 1 < n then
        match diffusionEstimate inp.files n stats with
        | some (nv, nb0) => (some nv, some nb0, true, zDim)
        | none =>
            if isFunctionalDesc ds.seriesDescription then
              match fmriEstimate inp.files n zDim with
              | some nv => (some nv, none, false, zDim)
              | none => (none, none, false, zDim)
            else (none, none, false, zDim)
      else (none, none, false, zDim)

/-- `None`-or-int record value. -/
def toPyInt? : Option Int → Py
  | some v => .int v
  | none => .null

/-- `None`-or-float record value (the acceleration factors are stored
through `float(...)`). -/
def toPyRat? : Option Rat → Py
  | some q => .flt q
  | none => .null

/-- `None`-or-count record value. -/
def toPyNat? : Option Nat → Py
  | some v => .int (v : Int)
  | none => .null

/-- `ds[tag].value if tag in ds else None`. -/
def optPyVal : Option Py → Py
  | some v => v
  | none => .null

/-- `str(ds[tag].value) if tag in ds else None`. -/
def optStrVal : Option String → Py
  | some s => .str s
  | none => .null

/-- `f"{q:.4f}"` on a coordinate: fixed four decimal places.  (Python
formats the underlying binary float with round-half-even; the rational
model rounds half away from zero — indistinguishable on the stated
coordinates.) -/
def formatFixed4 (q : Rat) : String :=
  let scaled : Int := scaledHalfUp q 10000
  let sign := if scaled < 0 then "-" else ""
  let a := scaled.natAbs
  let fs := toString (a % 10000)
  sign ++ toString (a / 10000) ++ "." ++
    String.mk (List.replicate (4 - fs.length) '0') ++ fs

/-- Lines 686-689: the `Position` record string. -/
def positionStr (ds : DFile) : String :=
  match ds.imagePosition with
  | some l =>
      if l ≠ [] ∧ 3 ≤ l.length then
        formatFixed4 (l.getD 0 0) ++ "," ++ formatFixed4 (l.getD 1 0) ++ "," ++
          formatFixed4 (l.getD 2 0)
      else ""
  | none => ""

/-- Lines 698-708: `format_datetime` (string slicing never raises, so
the `except` is dead). -/
def formatDatetime (d t : String) : String :=
  if d ≠ "" ∧ t ≠ "" then
    d.take 4 ++ "-" ++ (d.drop 4).take 2 ++ "-" ++ (d.drop 6).take 2 ++ "-" ++
      t.take 2 ++ ":" ++ (t.drop 2).take 2
  else ""

/-- Lines 504-506: `pixel_spacing[i] if pixel_spacing and
len(pixel_spacing) >= 2 else None`. -/
def voxelAt (ds : DFile) (i : Nat) : Py :=
  match ds.pixelSpacing with
  | some l => if l ≠ [] ∧ 2 ≤ l.length then .flt (l.getD i 0) else .null
  | none => .null

/-- Lines 909-942: the `output_data` dictionary, in insertion order,
every value wrapped in a one-element Python list. -/
def baseRecord (folderName : String) (ds : DFile) (rows cols : Option Int)
    (zDim : Py) (mb ip : Option Rat) : List (String × Py) :=
  [("SeriesNumber", .lst [ds.seriesNumber]),
   ("FolderName", .lst [.str folderName]),
   ("SeriesDescription", .lst [.str ds.seriesDescription]),
   ("MRAcquisitionType", .lst [.str ds.mrAcqType]),
   ("X_Dim", .lst [toPyInt? cols]),
   ("Y_Dim", .lst [toPyInt? rows]),
   ("Z_Dim", .lst [zDim]),
   ("X_Voxel", .lst [voxelAt ds 0]),
   ("Y_Voxel", .lst [voxelAt ds 1]),
   ("Z_Voxel", .lst [ds.sliceThickness]),
   ("SliceGap", .lst [ds.spacingBetweenSlices]),
   ("InversionTime", .lst [ds.inversionTime]),
   ("EchoTime", .lst [ds.echoTime]),
   ("RepetitionTime", .lst [ds.repetitionTime]),
   ("FlipAngle", .lst [ds.flipAngle]),
   ("Position", .lst [.str (positionStr ds)]),
   ("StudyDescription", .lst [.str ds.studyDescription]),
   ("SeriesAcqTime", .lst [.str (formatDatetime ds.seriesDate ds.seriesTime)]),
   ("DiffusionBValue", .lst [optPyVal (fileBval ds)]),
   ("MultibandFactor", .lst [toPyRat? mb]),
   ("InplaneAccelFactor", .lst [toPyRat? ip]),
   ("PhaseEncodingDirection", .lst [optStrVal ds.tagPhaseEncDir]),
   ("NumberOfAverages", .lst [ds.numberOfAverages]),
   ("Bandwidth", .lst [ds.pixelBandwidth]),
   ("CoilName", .lst [ds.receivingCoilName]),
   ("SliceOrientation", .lst [optStrVal ds.tagPatientPosition]),
   ("MagneticFieldStrength", .lst [ds.magneticFieldStrength]),
   ("PercentPhaseFOV", .lst [optPyVal ds.tagPercentPhaseFOV]),
   ("PercentSampling", .lst [optPyVal ds.tagPercentSampling])]

/-- `output_data[key] = value`: replace in place when the key exists,
append otherwise (Python dict update semantics). -/
def setField (rec : List (String × Py)) (k : String) (v : Py) :
    List (String × Py) :=
  if (rec.find? (fun kv => kv.1 = k)).isSome then
    rec.map (fun kv => if kv.1 = k then (kv.1, v) else kv)
  else rec ++ [(k, v)]

/-- Field lookup in an emitted record. -/
def getField (rec : List (String × Py)) (k : String) : Option Py :=
  (rec.find? (fun kv => kv.1 = k)).map Prod.snd

/-- Lines 944-963: append `NumberOfVolumes` and redo the non-mosaic
`Z_Dim = len(dicom_files) // num_volumes` recalculation (mosaic keeps
the mosaic-attribute value). -/
def finalizeVolumes (rec : List (String × Py)) (n : Nat) (isMos : Bool)
    (numVolumes : Option Py) : List (String × Py) :=
  match numVolumes with
  | some nv =>
      if pyNumGtLit nv 1 then
        let r := setField rec "NumberOfVolumes" (.lst [nv])
        if isMos then r
        else
          match pyFloorDiv (.int (n : Int)) nv with
          | some c =>
              if pyNumGtLit c 0 then setField r "Z_Dim" (.lst [c]) else r
          | none => r
      else setField rec "NumberOfVolumes" (.lst [.null])
  | none => setField rec "NumberOfVolumes" (.lst [.null])

/-- Lines 944-969: the `NumberOfVolumes` block followed by the
`NumberOfB0s` one (`[num_b0s if num_b0s is not None else None]` when the
diffusion flag is set, `[None]` otherwise). -/
def finalizeRecord (rec : List (String × Py)) (n : Nat) (isMos : Bool)
    (numVolumes : Option Py) (numB0s : Option Nat) (isDiff : Bool) :
    List (String × Py) :=
  let rec1 := finalizeVolumes rec n isMos numVolumes
  if isDiff then setField rec1 "NumberOfB0s" (.lst [toPyNat? numB0s])
  else setField rec1 "NumberOfB0s" (.lst [.null])

/-- Lines 973-986: the first scalar-cleaning pass over one cell. -/
def cleanCell (v : Py) : Py :=
  match v with
  | .lst [] => .null
  | .lst (x :: _) =>
      match x with
      | .lst [] => .null
      | .lst (y :: _) => y
      | other => other
  | other => other

/-- Lines 989-992: the second (debug) cleaning pass over one cell. -/
def cleanCell2 (v : Py) : Py :=
  match v with
  | .lst [] => .null
  | .lst (x :: _) => x
  | other => other

/-- Both cleaning passes applied to every cell of the record. -/
def cleanRecord (rec : List (String × Py)) : List (String × Py) :=
  rec.map (fun kv => (kv.1, cleanCell2 (cleanCell kv.2)))

/-- Lines 430-435: `z_dim = None`, replaced by the `(0019,100A)` value
when the series is mosaic and the tag is present (a `None` value keeps
`z_dim` at `None`). -/
def zSeed (ds : DFile) : Py :=
  if isMosaic ds then
    match ds.tagMosaicSlices with
    | some v => v
    | none => .null
  else .null

/-- Lines 430-501: the step-1 `z_dim` — the mosaic seed when it is not
`None` (line 489's `if z_dim is None` check), else the resolution from
the collected statistics. -/
def zStep1 (ds : DFile) (stats : Collected) (n : Nat) : Py :=
  if (zSeed ds).isNull then .int (zFromCollected stats n) else zSeed ds

/-- The whole of `gather_info` (lines 275-1042), from the series file
list and sibling `.bval` file to the emitted one-row record; `none` when
the series is empty or its representative (first) file is unreadable
(lines 277, 285-288). -/
def gatherInfo (folderName : String) (inp : SeriesInput) :
    Option (List (String × Py)) :=
  match inp.files with
  | [] => none
  | f0 :: _ =>
      match f0 with
      | none => none
      | some ds =>
          let n := inp.files.length
          let isMos := isMosaic ds
          let rc : Option Int × Option Int :=
            if isMos then mosaicCorrect ds.rows ds.cols ds
            else consensusDims ds.rows ds.cols inp.files
          let stats := collectStats inp.files
          let zDim : Py := zStep1 ds stats n
          let mb := multibandFactor ds
          let ip := inplaneAccelFactor ds isMos
          let vr := volumeResolve inp ds isMos stats zDim
          let rec0 := baseRecord folderName ds rc.1 rc.2 vr.2.2.2 mb ip
          some (cleanRecord (finalizeRecord rec0 n isMos vr.1 vr.2.1 vr.2.2.1))

/-! ### Record lookup lemmas -/

theorem find?_update_ne (r : List (String × Py)) (k k' : String) (v : Py)
    (h : k ≠ k') :
    (r.map (fun kv => if kv.1 = k' then (kv.1, v) else kv)).find?
        (fun kv => decide (kv.1 = k)) = r.find? (fun kv => decide (kv.1 = k)) := by
  induction r with
  | nil => rfl
  | cons hd tl ih =>
      rw [List.map_cons]
      by_cases hh : hd.1 = k'
      · rw [if_pos hh]
        have hne : ¬ hd.1 = k := fun hk => h (by rw [← hk]; exact hh)
        rw [List.find?_cons_of_neg _ (by simpa using hne),
          List.find?_cons_of_neg _ (by simpa using hne), ih]
      · rw [if_neg hh]
        by_cases hk : hd.1 = k
        · rw [List.find?_cons_of_pos _ (by simpa using hk),
            List.find?_cons_of_pos _ (by simpa using hk)]
        · rw [List.find?_cons_of_neg _ (by simpa using hk),
            List.find?_cons_of_neg _ (by simpa using hk), ih]

theorem find?_update_self (r : List (String × Py)) (k : String) (v : Py) :
    (r.map (fun kv => if kv.1 = k then (kv.1, v) else kv)).find?
        (fun kv => decide (kv.1 = k)) =
      (r.find? (fun kv => decide (kv.1 = k))).map
        (fun kv => if kv.1 = k then (kv.1, v) else kv) := by
  induction r with
  | nil => rfl
  | cons hd tl ih =>
      rw [List.map_cons]
      by_cases hk : hd.1 = k
      · rw [if_pos hk, List.find?_cons_of_pos _ (by simpa using hk),
          List.find?_cons_of_pos _ (by simp [hk])]
        simp [hk]
      · rw [if_neg hk, List.find?_cons_of_neg _ (by simpa using hk),
          List.find?_cons_of_neg _ (by simpa using hk), ih]

theorem getField_setField_self (r : List (String × Py)) (k : String) (v : Py) :
    getField (setField r k v) k = some v := by
  unfold setField getField
  split
  · next h =>
      rw [find?_update_self]
      obtain ⟨kv, hkv⟩ := Option.isSome_iff_exists.mp h
      have hk : kv.1 = k := by simpa using List.find?_some hkv
      simp [hkv, hk]
  · next h =>
      have hnone : r.find? (fun kv => decide (kv.1 = k)) = none := by
        cases hf : r.find? (fun kv => decide (kv.1 = k)) with
        | none => rfl
        | some kv => rw [hf] at h; simp at h
      rw [List.find?_append, hnone]
      simp

theorem getField_setField_ne (r : List (String × Py)) (k k' : String) (v : Py)
    (h : k ≠ k') : getField (setField r k' v) k = getField r k := by
  unfold setField getField
  split
  · rw [find?_update_ne _ _ _ _ h]
  · rw [List.find?_append]
    cases hf : r.find? (fun kv => decide (kv.1 = k)) with
    | some kv => simp
    | none => simp [List.find?, Ne.symm h]

theorem find?_clean_map (r : List (String × Py)) (k : String) :
    (r.map (fun kv => (kv.1, cleanCell2 (cleanCell kv.2)))).find?
        (fun kv => decide (kv.1 = k)) =
      (r.find? (fun kv => decide (kv.1 = k))).map
        (fun kv => (kv.1, cleanCell2 (cleanCell kv.2))) := by
  induction r with
  | nil => rfl
  | cons hd tl ih =>
      rw [List.map_cons]
      by_cases hk : hd.1 = k
      · rw [List.find?_cons_of_pos _ (by simpa using hk),
          List.find?_cons_of_pos _ (by simpa using hk)]
        rfl
      · rw [List.find?_cons_of_neg _ (by simpa using hk),
          List.find?_cons_of_neg _ (by simpa using hk), ih]

theorem getField_cleanRecord (r : List (String × Py)) (k : String) :
    getField (cleanRecord r) k =
      (getField r k).map (fun v => cleanCell2 (cleanCell v)) := by
  unfold cleanRecord getField
  rw [find?_clean_map]
  cases r.find? (fun kv => decide (kv.1 = k)) <;> rfl

/-- A non-list scalar survives the wrap-in-list plus two cleaning passes
unchanged. -/
theorem clean_scalar (v : Py) (h : v.isList = false) :
    cleanCell2 (cleanCell (.lst [v])) = v := by
  cases v <;> simp_all [Py.isList, cleanCell, cleanCell2]

/-- Stage C never touches `z_dim` on a mosaic series: the `.bval`
recalculation is guarded by `not is_mosaic` and no other branch assigns
it. -/
theorem volumeResolve_z_of_mosaic (inp : SeriesInput) (ds : DFile)
    (stats : Collected) (z : Py) :
    (volumeResolve inp ds true stats z).2.2.2 = z := by
  unfold volumeResolve
  cases inp.bvalSibling with
  | none =>
      simp only []
      split
      · split
        · rfl
        · split
          · split <;> rfl
          · rfl
      · rfl
  | some vals => simp

/-- The output-stage `Z_Dim` recalculation is skipped on mosaic series:
the final record's `Z_Dim` cell is the one `baseRecord` received. -/
theorem finalizeVolumes_zdim_of_mosaic (r : List (String × Py)) (n : Nat)
    (nv : Option Py) :
    getField (finalizeVolumes r n true nv) "Z_Dim" = getField r "Z_Dim" := by
  have hnv : ("Z_Dim" : String) ≠ "NumberOfVolumes" := by decide
  cases nv with
  | none => exact getField_setField_ne _ _ _ _ hnv
  | some v =>
      by_cases hgt : pyNumGtLit v 1
      · simp only [finalizeVolumes, hgt, if_true]
        exact getField_setField_ne _ _ _ _ hnv
      · simp only [finalizeVolumes, hgt, if_false]
        exact getField_setField_ne _ _ _ _ hnv

theorem finalize_zdim_of_mosaic (r : List (String × Py)) (n : Nat)
    (nv : Option Py) (nb : Option Nat) (d : Bool) :
    getField (finalizeRecord r n true nv nb d) "Z_Dim" = getField r "Z_Dim" := by
  have hb0 : ("Z_Dim" : String) ≠ "NumberOfB0s" := by decide
  unfold finalizeRecord
  by_cases hd : d = true <;>
    simp only [hd, if_true, if_false, Bool.false_eq_true] <;>
    rw [getField_setField_ne _ _ _ _ hb0, finalizeVolumes_zdim_of_mosaic]

theorem getField_base_zdim (fn : String) (ds : DFile) (r c : Option Int)
    (z : Py) (mb ip : Option Rat) :
    getField (baseRecord fn ds r c z mb ip) "Z_Dim" = some (.lst [z]) := by
  rfl

/-- C1 — For every non-empty series whose representative (first) file is
mosaic-encoded and carries the images-per-mosaic attribute `(0019,100A)`
with a proper scalar value, the emitted record's `Z_Dim` equals that
attribute's value: neither step-1 resolution, nor the sibling
`.bval`-file recalculation, nor the `NumberOfVolumes`-based output
recalculation ever alters it, for any file list tail and any sibling
`.bval` content (hence any resulting `NumberOfVolumes`). -/
theorem zStep1_of_seed (ds : DFile) (stats : Collected) (n : Nat) (v : Py)
    (hmos : isMosaic ds = true) (htag : ds.tagMosaicSlices = some v)
    (hnn : v.isNull = false) : zStep1 ds stats n = v := by
  unfold zStep1 zSeed
  rw [hmos, if_pos rfl, htag]
  simp only [hnn, Bool.false_eq_true, if_false]

theorem mosaic_zdim_authoritative (fn : String) (ds : DFile)
    (rest : List (Option DFile)) (bv : Option (List Rat)) (v : Py)
    (hmos : isMosaic ds = true) (htag : ds.tagMosaicSlices = some v)
    (hnn : v.isNull = false) (hnl : v.isList = false) :
    ∃ r, gatherInfo fn ⟨some ds :: rest, bv⟩ = some r ∧
      getField r "Z_Dim" = some v := by
  refine ⟨_, rfl, ?_⟩
  rw [getField_cleanRecord]
  simp only [gatherInfo, hmos, htag, if_true, hnn, if_false]
  rw [volumeResolve_z_of_mosaic, finalize_zdim_of_mosaic, getField_base_zdim,
    zStep1_of_seed _ _ _ _ hmos htag hnn]
  simp [clean_scalar v hnl]

theorem getField_finalizeVolumes_other (r : List (String × Py)) (n : Nat)
    (m : Bool) (nv : Option Py) (k : String)
    (h1 : k ≠ "NumberOfVolumes") (h2 : k ≠ "Z_Dim") :
    getField (finalizeVolumes r n m nv) k = getField r k := by
  cases nv with
  | none => exact getField_setField_ne _ _ _ _ h1
  | some v =>
      by_cases hgt : pyNumGtLit v 1
      · simp only [finalizeVolumes, hgt, if_true]
        by_cases hm : m = true
        · simp only [hm, if_true]
          exact getField_setField_ne _ _ _ _ h1
        · simp only [hm, if_false, Bool.false_eq_true]
          cases pyFloorDiv (.int (n : Int)) v with
          | none => exact getField_setField_ne _ _ _ _ h1
          | some c =>
              by_cases hc : pyNumGtLit c 0
              · simp only [hc, if_true]
                rw [getField_setField_ne _ _ _ _ h2]
                exact getField_setField_ne _ _ _ _ h1
              · simp only [hc, if_false]
                exact getField_setField_ne _ _ _ _ h1
      · simp only [finalizeVolumes, hgt, if_false]
        exact getField_setField_ne _ _ _ _ h1

theorem getField_finalize_other (r : List (String × Py)) (n : Nat) (m : Bool)
    (nv : Option Py) (nb : Option Nat) (d : Bool) (k : String)
    (h1 : k ≠ "NumberOfVolumes") (h2 : k ≠ "Z_Dim")
    (h3 : k ≠ "NumberOfB0s") :
    getField (finalizeRecord r n m nv nb d) k = getField r k := by
  unfold finalizeRecord
  by_cases hd : d = true <;>
    simp only [hd, if_true, if_false, Bool.false_eq_true] <;>
    rw [getField_setField_ne _ _ _ _ h3] <;>
    exact getField_finalizeVolumes_other _ _ _ _ _ h1 h2

theorem getField_base_inplane (fn : String) (ds : DFile) (r c : Option Int)
    (z : Py) (mb ip : Option Rat) :
    getField (baseRecord fn ds r c z mb ip) "InplaneAccelFactor" =
      some (.lst [toPyRat? ip]) := by
  rfl

/-- The representative files of two runs that are identical except for
the presence or value of the `(0019,100A)` attribute. -/
def sameExceptMosaicTag (a b : DFile) : Prop :=
  b = { a with tagMosaicSlices := b.tagMosaicSlices }

/-- `sameExceptMosaicTag` lifted to possibly-unreadable files. -/
def optSameExceptMosaicTag : Option DFile → Option DFile → Prop
  | none, none => True
  | some a, some b => sameExceptMosaicTag a b
  | _, _ => False

/-- C5 — On a mosaic series the `(0019,100A)` vendor attribute (the
mosaic-slice-count alias) is never read as `inplane_accel_factor`: two
runs on inputs identical except for the presence or value of that
attribute (on any of their files, hence in particular a value in
`[1,16]`) emit the same `InplaneAccelFactor` field. -/
theorem inplane_ignores_mosaic_tag (fn : String) (ds₁ ds₂ : DFile)
    (rest₁ rest₂ : List (Option DFile)) (bv : Option (List Rat))
    (hsame : sameExceptMosaicTag ds₁ ds₂)
    (hrest : List.Forall₂ optSameExceptMosaicTag rest₁ rest₂)
    (hmos : isMosaic ds₁ = true) :
    ∃ r₁ r₂, gatherInfo fn ⟨some ds₁ :: rest₁, bv⟩ = some r₁ ∧
      gatherInfo fn ⟨some ds₂ :: rest₂, bv⟩ = some r₂ ∧
      getField r₁ "InplaneAccelFactor" = getField r₂ "InplaneAccelFactor" := by
  have hmos₂ : isMosaic ds₂ = true := by
    rw [hsame]; exact hmos
  refine ⟨_, _, rfl, rfl, ?_⟩
  rw [getField_cleanRecord, getField_cleanRecord,
    getField_finalize_other _ _ _ _ _ _ _ (by decide) (by decide) (by decide),
    getField_finalize_other _ _ _ _ _ _ _ (by decide) (by decide) (by decide),
    getField_base_inplane, getField_base_inplane, hmos, hmos₂, hsame]
  rfl


theorem finalize_zdim_to_volumes (r : List (String × Py)) (n : Nat) (m : Bool)
    (nv : Option Py) (nb : Option Nat) (d : Bool) :
    getField (finalizeRecord r n m nv nb d) "Z_Dim" =
      getField (finalizeVolumes r n m nv) "Z_Dim" := by
  unfold finalizeRecord
  by_cases hd : d = true <;>
    simp only [hd, if_true, if_false, Bool.false_eq_true] <;>
    exact getField_setField_ne _ _ _ _ (by decide)

theorem finalizeVolumes_zdim_cases (r : List (String × Py)) (n : Nat)
    (m : Bool) (nv : Option Py) :
    getField (finalizeVolumes r n m nv) "Z_Dim" = getField r "Z_Dim" ∨
    ∃ c, pyNumGtLit c 0 = true ∧
      getField (finalizeVolumes r n m nv) "Z_Dim" = some (.lst [c]) := by
  have hnv : ("Z_Dim" : String) ≠ "NumberOfVolumes" := by decide
  cases nv with
  | none => exact Or.inl (getField_setField_ne _ _ _ _ hnv)
  | some v =>
      by_cases hgt : pyNumGtLit v 1
      · simp only [finalizeVolumes, hgt, if_true]
        by_cases hm : m = true
        · simp only [hm, if_true]
          exact Or.inl (getField_setField_ne _ _ _ _ hnv)
        · simp only [hm, if_false, Bool.false_eq_true]
          cases pyFloorDiv (.int (n : Int)) v with
          | none => exact Or.inl (getField_setField_ne _ _ _ _ hnv)
          | some c =>
              by_cases hc : pyNumGtLit c 0
              · simp only [hc, if_true]
                exact Or.inr ⟨c, hc, getField_setField_self _ _ _⟩
              · simp only [hc, if_false]
                exact Or.inl (getField_setField_ne _ _ _ _ hnv)
      · simp only [finalizeVolumes, hgt, if_false]
        exact Or.inl (getField_setField_ne _ _ _ _ hnv)

/-- When the pre-output `z_dim` is an integer (the non-mosaic-seeded
case), stage C leaves it an integer. -/
theorem volumeResolve_z_int (inp : SeriesInput) (ds : DFile) (m : Bool)
    (stats : Collected) (k : Int) :
    ∃ j : Int, (volumeResolve inp ds m stats (.int k)).2.2.2 = .int j := by
  unfold volumeResolve
  cases inp.bvalSibling with
  | some vals =>
      simp only []
      split
      · split
        · exact ⟨_, rfl⟩
        · exact ⟨k, rfl⟩
      · exact ⟨k, rfl⟩
  | none =>
      simp only []
      split
      · split
        · exact ⟨k, rfl⟩
        · split
          · split <;> exact ⟨k, rfl⟩
          · exact ⟨k, rfl⟩
      · exact ⟨k, rfl⟩

theorem pyNumGtLit_scalar (c : Py) (l : Int) (h : pyNumGtLit c l = true) :
    c.isList = false ∧ c.isNull = false := by
  cases c <;> simp_all [pyNumGtLit, Py.asNum, Py.isList, Py.isNull]

/-- The step-1 `z_dim` is an integer, or the mosaic attribute's own
non-`None` value. -/
theorem zStep1_cases (ds : DFile) (stats : Collected) (n : Nat) :
    (∃ k : Int, zStep1 ds stats n = .int k) ∨
    (∃ v, ds.tagMosaicSlices = some v ∧ v.isNull = false ∧
      zStep1 ds stats n = v ∧ isMosaic ds = true) := by
  unfold zStep1 zSeed
  by_cases hm : isMosaic ds = true
  · rw [hm, if_pos rfl]
    cases htag : ds.tagMosaicSlices with
    | none => simp [Py.isNull]
    | some v =>
        by_cases hv : v.isNull = true
        · have hv' : v = .null := by cases v <;> simp_all [Py.isNull]
          subst hv'
          simp [Py.isNull]
        · simp only [Bool.not_eq_true] at hv
          right
          exact ⟨v, rfl, hv, by simp [hv], rfl⟩
  · simp only [Bool.not_eq_true] at hm
    left
    simp [hm, Py.isNull]

/-- C10 — For every non-empty series whose representative (first) file
is readable (and whose images-per-mosaic attribute, when present,
carries a scalar value), the emitted record's `Z_Dim` field is non-null:
every control path assigns it — the images-per-mosaic attribute, else
the count of distinct rounded slice positions, else the count of
distinct instance numbers (when non-empty and at most the file count),
else the total file count, possibly replaced by a positive volume-count
quotient. -/
theorem zdim_always_assigned (fn : String) (ds : DFile)
    (rest : List (Option DFile)) (bv : Option (List Rat))
    (hseed : ∀ v, ds.tagMosaicSlices = some v → v.isList = false) :
    ∃ r, gatherInfo fn ⟨some ds :: rest, bv⟩ = some r ∧
      ∃ zv, getField r "Z_Dim" = some zv ∧ zv ≠ .null := by
  refine ⟨_, rfl, ?_⟩
  rw [getField_cleanRecord, finalize_zdim_to_volumes]
  rcases finalizeVolumes_zdim_cases
      (baseRecord fn ds _ _ _ _ _) (some ds :: rest).length _ _ with h | ⟨c, hc, h⟩
  · rw [h, getField_base_zdim]
    rcases zStep1_cases ds (collectStats (some ds :: rest))
        (some ds :: rest).length with ⟨k, hk⟩ | ⟨v, htag, hvnn, hzv, hmos⟩
    · rw [hk]
      obtain ⟨j, hj⟩ := volumeResolve_z_int ⟨some ds :: rest, bv⟩ ds
        (isMosaic ds) (collectStats (some ds :: rest)) k
      rw [hj]
      exact ⟨_, rfl, by simp [clean_scalar (Py.int _) rfl]⟩
    · rw [hzv, hmos, volumeResolve_z_of_mosaic]
      refine ⟨v, by simp [clean_scalar v (hseed v htag)], ?_⟩
      intro hnull; rw [hnull] at hvnn; simp [Py.isNull] at hvnn
  · rw [h]
    obtain ⟨hl, hn⟩ := pyNumGtLit_scalar c 0 hc
    refine ⟨c, by simp [clean_scalar c hl], ?_⟩
    intro hnull; rw [hnull] at hn; simp [Py.isNull] at hn

/-- `find?` only depends on pointwise-equal predicates. -/
theorem find?_ext {α : Type} (p q : α → Bool) (l : List α)
    (h : ∀ a, p a = q a) : l.find? p = l.find? q := by
  induction l with
  | nil => rfl
  | cons hd tl ih =>
      by_cases hp : p hd = true
      · rw [List.find?_cons_of_pos _ hp, List.find?_cons_of_pos _ (h hd ▸ hp)]
      · rw [List.find?_cons_of_neg _ hp,
          List.find?_cons_of_neg _ (fun hq => hp (h hd ▸ hq)), ih]

/-- The Python `max(items, key=count)` scan — which replaces the running
best only on a strict increase — returns the first entry whose count is
greatest: the spec's "highest occurrence count, ties broken by the
first-encountered pair". -/
theorem scanFirstMax (xs : List ((Int × Int) × Nat)) :
    ∀ e, (e :: xs).find? (fun f => (e :: xs).all (fun g => decide (g.2 ≤ f.2))) =
      some (xs.foldl (fun best x => if best.2 < x.2 then x else best) e) := by
  induction xs with
  | nil =>
      intro e
      rw [List.find?_cons_of_pos _ (by simp)]
      rfl
  | cons x xs ih =>
      intro e
      by_cases hx : e.2 < x.2
      · have hstep : (if e.2 < x.2 then x else e) = x := if_pos hx
        have hpe : ∀ f : (Int × Int) × Nat,
            ((e :: x :: xs).all (fun g => decide (g.2 ≤ f.2))) =
              ((x :: xs).all (fun g => decide (g.2 ≤ f.2))) := by
          intro f
          simp only [List.all_cons]
          by_cases h2 : x.2 ≤ f.2
          · simp [h2, Nat.le_of_lt (lt_of_lt_of_le hx h2)]
          · simp [h2]
        have he : ¬ ((fun f : (Int × Int) × Nat =>
            (e :: x :: xs).all (fun g => decide (g.2 ≤ f.2))) e = true) := by
          intro hcon
          simp only [List.all_cons, Bool.and_eq_true, decide_eq_true_eq] at hcon
          have := hcon.2.1
          omega
        have l1 := @List.find?_cons_of_neg _
          (fun f => (e :: x :: xs).all (fun g => decide (g.2 ≤ f.2))) e
          (x :: xs) he
        rw [l1, find?_ext _ (fun f => (x :: xs).all (fun g => decide (g.2 ≤ f.2)))
          _ hpe, ih x, List.foldl_cons, hstep]
      · have hxe : x.2 ≤ e.2 := Nat.le_of_not_lt hx
        have hstep : (if e.2 < x.2 then x else e) = e := if_neg hx
        have hpe : ∀ f : (Int × Int) × Nat,
            ((e :: x :: xs).all (fun g => decide (g.2 ≤ f.2))) =
              ((e :: xs).all (fun g => decide (g.2 ≤ f.2))) := by
          intro f
          simp only [List.all_cons]
          by_cases h1 : e.2 ≤ f.2
          · simp [h1, le_trans hxe h1]
          · simp [h1]
        rw [find?_ext _ (fun f => (e :: xs).all (fun g => decide (g.2 ≤ f.2)))
          _ hpe]
        by_cases hQe : ((fun f : (Int × Int) × Nat =>
            (e :: xs).all (fun g => decide (g.2 ≤ f.2))) e = true)
        · have l1 := @List.find?_cons_of_pos _
            (fun f => (e :: xs).all (fun g => decide (g.2 ≤ f.2))) e
            (x :: xs) hQe
          have l2 := @List.find?_cons_of_pos _
            (fun f => (e :: xs).all (fun g => decide (g.2 ≤ f.2))) e xs hQe
          rw [l1, List.foldl_cons, hstep, ← ih e, l2]
        · have hQx : ¬ ((fun f : (Int × Int) × Nat =>
              (e :: xs).all (fun g => decide (g.2 ≤ f.2))) x = true) := by
            intro hcon
            simp only [List.all_cons, Bool.and_eq_true, decide_eq_true_eq]
              at hcon hQe
            push_neg at hQe
            have hex : e.2 = x.2 := le_antisymm hcon.1 hxe
            exact (hQe le_rfl) (by rw [hex]; exact hcon.2)
          have l1 := @List.find?_cons_of_neg _
            (fun f => (e :: xs).all (fun g => decide (g.2 ≤ f.2))) e
            (x :: xs) hQe
          have l2 := @List.find?_cons_of_neg _
            (fun f => (e :: xs).all (fun g => decide (g.2 ≤ f.2))) x xs hQx
          have l3 := @List.find?_cons_of_neg _
            (fun f => (e :: xs).all (fun g => decide (g.2 ≤ f.2))) e xs hQe
          rw [l1, l2, List.foldl_cons, hstep, ← ih e, l3]

/-- Taken from the spec's wording of stage B: sample
`N = clamp(file_count // 5, 10, 100)` files — all files when fewer than
`N` exist — at the evenly spaced indices `floor(i * file_count / N)`,
and keep the `(rows, cols)` of every sampled file with both components
in `[32, 8192]`. -/
def specConsensusSamples (files : List (Option DFile)) : List (Int × Int) :=
  let n := files.length
  let N := max 10 (min 100 (n / 5))
  let idxs := if n ≤ N then List.range n else (List.range N).map (fun i => i * n / N)
  idxs.filterMap
    (fun i =>
      match files.getD i none with
      | some f =>
          match f.rows, f.cols with
          | some r, some c =>
              if 32 ≤ r ∧ r ≤ 8192 ∧ 32 ≤ c ∧ c ≤ 8192 then some (r, c)
              else none
          | _, _ => none
      | none => none)

/-- Taken from the spec's wording of stage B: the modal sampled pair —
the first tally entry whose occurrence count is greatest ("ties broken
by first-encountered pair during tally iteration"). -/
def specModalPair (ps : List (Int × Int)) : Option (Int × Int) :=
  ((tallyPairs ps).find?
      (fun e => (tallyPairs ps).all (fun f => decide (f.2 ≤ e.2)))).map Prod.fst

/-- The code's sampled valid pairs coincide with the spec's: the code's
extra truthiness checks (`rows_check and cols_check`) are subsumed by
the `32 ≤ ·` bound, and its `idx >= len` guard never fires on the evenly
spaced indices. -/
theorem consensusSamples_eq_spec (files : List (Option DFile)) :
    consensusSamples files = specConsensusSamples files := by
  unfold consensusSamples specConsensusSamples consensusIndices
  apply List.filterMap_congr
  intro i hi
  have hlt : i < files.length := by
    rcases le_or_lt files.length (max 10 (min 100 (files.length / 5))) with h | h
    · rw [if_pos h] at hi
      exact List.mem_range.mp hi
    · rw [if_neg (not_le.mpr h)] at hi
      obtain ⟨j, hj, rfl⟩ := List.mem_map.mp hi
      have hj' : j < max 10 (min 100 (files.length / 5)) := List.mem_range.mp hj
      have hN : 0 < max 10 (min 100 (files.length / 5)) := by positivity
      calc j * files.length / max 10 (min 100 (files.length / 5))
          ≤ j * files.length / max 10 (min 100 (files.length / 5)) := le_rfl
        _ < files.length := by
            rw [Nat.div_lt_iff_lt_mul hN]
            calc j * files.length < max 10 (min 100 (files.length / 5)) *
                  files.length := by
                  exact Nat.mul_lt_mul_of_lt_of_le hj' le_rfl (by omega)
              _ = files.length * max 10 (min 100 (files.length / 5)) :=
                  Nat.mul_comm _ _
  rw [if_pos hlt]
  rcases files.getD i none with _ | f
  · rfl
  · dsimp only
    rcases hrows : f.rows with _ | r
    · rfl
    · rcases hcols : f.cols with _ | c
      · rfl
      · dsimp only
        by_cases hr : 32 ≤ r ∧ r ≤ 8192 ∧ 32 ≤ c ∧ c ≤ 8192
        · rw [if_pos ⟨by omega, by omega, hr.1, hr.2.1, hr.2.2.1, hr.2.2.2⟩,
            if_pos hr]
        · rw [if_neg (fun hcon => hr ⟨hcon.2.2.1, hcon.2.2.2.1,
            hcon.2.2.2.2.1, hcon.2.2.2.2.2⟩), if_neg hr]

theorem firstMaxByCount_spec (items : List ((Int × Int) × Nat)) :
    firstMaxByCount items =
      (items.find? (fun e => items.all (fun f => decide (f.2 ≤ e.2)))).map
        Prod.fst := by
  cases items with
  | nil => rfl
  | cons e xs => rw [scanFirstMax xs e]; rfl

/-- The code's consensus resolution equals the spec's: modal sampled
pair when one exists, the representative's own dimensions otherwise. -/
theorem consensusDims_eq_spec (r c : Option Int) (files : List (Option DFile)) :
    consensusDims r c files =
      match specModalPair (specConsensusSamples files) with
      | some p => (some p.1, some p.2)
      | none => (r, c) := by
  unfold consensusDims specModalPair
  rw [← consensusSamples_eq_spec, firstMaxByCount_spec]
  cases (tallyPairs (consensusSamples files)).find?
      (fun e => (tallyPairs (consensusSamples files)).all
        (fun f => decide (f.2 ≤ e.2))) with
  | none => rfl
  | some p => rfl

theorem getField_base_xdim (fn : String) (ds : DFile) (r c : Option Int)
    (z : Py) (mb ip : Option Rat) :
    getField (baseRecord fn ds r c z mb ip) "X_Dim" = some (.lst [toPyInt? c]) := by
  rfl

theorem getField_base_ydim (fn : String) (ds : DFile) (r c : Option Int)
    (z : Py) (mb ip : Option Rat) :
    getField (baseRecord fn ds r c z mb ip) "Y_Dim" = some (.lst [toPyInt? r]) := by
  rfl

theorem toPyInt?_not_list (o : Option Int) : (toPyInt? o).isList = false := by
  cases o <;> rfl

/-- C3 — On a non-mosaic series the resolved `(rows, cols)` is the modal
valid pair over the spec's sample (`N = clamp(file_count // 5, 10,
100)` evenly spaced files, components in `[32, 8192]`, ties to the
first-encountered pair), emitted as `Y_Dim`/`X_Dim`; when no sampled
file yields a valid pair the representative file's own dimensions are
retained unmodified. -/
theorem consensus_resolves_modal_dims (fn : String) (ds : DFile)
    (rest : List (Option DFile)) (bv : Option (List Rat))
    (hmos : isMosaic ds = false) :
    ∃ r, gatherInfo fn ⟨some ds :: rest, bv⟩ = some r ∧
      ((∃ p, specModalPair (specConsensusSamples (some ds :: rest)) = some p ∧
          getField r "Y_Dim" = some (.int p.1) ∧
          getField r "X_Dim" = some (.int p.2)) ∨
        (specModalPair (specConsensusSamples (some ds :: rest)) = none ∧
          getField r "Y_Dim" = some (toPyInt? ds.rows) ∧
          getField r "X_Dim" = some (toPyInt? ds.cols))) := by
  refine ⟨_, rfl, ?_⟩
  rw [getField_cleanRecord, getField_cleanRecord,
    getField_finalize_other _ _ _ _ _ _ _ (by decide) (by decide) (by decide),
    getField_finalize_other _ _ _ _ _ _ _ (by decide) (by decide) (by decide),
    getField_base_ydim, getField_base_xdim]
  simp only [hmos, Bool.false_eq_true, if_false]
  rw [consensusDims_eq_spec]
  cases hmode : specModalPair (specConsensusSamples (some ds :: rest)) with
  | some p =>
      left
      refine ⟨p, rfl, ?_, ?_⟩ <;>
        simp [toPyInt?, clean_scalar _ (show (Py.int _).isList = false from rfl)]
  | none =>
      right
      exact ⟨rfl, by simp [clean_scalar _ (toPyInt?_not_list _)],
        by simp [clean_scalar _ (toPyInt?_not_list _)]⟩

/-- Witness input for the mosaic `z_dim` invariant: a mosaic file with
`(0019,100A) = 42` plus a sibling b-value list that would otherwise
trigger the volume-count recalculation. -/
def mosaicWitnessFile : DFile :=
  { imageType := ["ORIGINAL", "PRIMARY", "M", "ND", "MOSAIC"],
    rows := some 800, cols := some 800,
    tagMosaicSlices := some (.int 42) }

theorem mosaic_zdim_authoritative_witness :
    ∃ r, gatherInfo "s"
        ⟨[some mosaicWitnessFile, some mosaicWitnessFile,
          some mosaicWitnessFile],
         some [0, 1000, 2000]⟩ = some r ∧
      getField r "Z_Dim" = some (.int 42) :=
  mosaic_zdim_authoritative "s" mosaicWitnessFile
    [some mosaicWitnessFile, some mosaicWitnessFile] (some [0, 1000, 2000])
    (.int 42) (by decide) rfl rfl rfl

theorem inplane_ignores_mosaic_tag_witness :
    ∃ r₁ r₂,
      gatherInfo "s"
          ⟨[some { imageType := ["MOSAIC"],
                   tagParRedInPlane := some (.int 2) }], none⟩ = some r₁ ∧
      gatherInfo "s"
          ⟨[some { imageType := ["MOSAIC"],
                   tagParRedInPlane := some (.int 2),
                   tagMosaicSlices := some (.int 5) }], none⟩ = some r₂ ∧
      getField r₁ "InplaneAccelFactor" = getField r₂ "InplaneAccelFactor" :=
  inplane_ignores_mosaic_tag "s"
    { imageType := ["MOSAIC"], tagParRedInPlane := some (.int 2) }
    { imageType := ["MOSAIC"], tagParRedInPlane := some (.int 2),
      tagMosaicSlices := some (.int 5) }
    [] [] none rfl List.Forall₂.nil (by decide)

theorem zdim_always_assigned_witness :
    ∃ r, gatherInfo "s"
        ⟨[some { rows := some 64, cols := some 64 }], none⟩ = some r ∧
      ∃ zv, getField r "Z_Dim" = some zv ∧ zv ≠ .null :=
  zdim_always_assigned "s" { rows := some 64, cols := some 64 } [] none
    (fun _ h => nomatch h)

/-- The 80 % / 20 % witness series of the consensus sampler: eight files
reporting `(256, 256)` and two reporting `(64, 64)`. -/
def consensusWitnessFiles : List (Option DFile) :=
  List.replicate 8 (some { rows := some 256, cols := some 256 }) ++
    List.replicate 2 (some { rows := some 64, cols := some 64 })

theorem consensus_resolves_modal_dims_witness :
    ∃ r, gatherInfo "s"
        ⟨some { rows := some 256, cols := some 256 } ::
          consensusWitnessFiles.tail, none⟩ = some r ∧
      getField r "Y_Dim" = some (.int 256) ∧
      getField r "X_Dim" = some (.int 256) := by
  obtain ⟨r, hr, h | h⟩ := consensus_resolves_modal_dims "s"
    { rows := some 256, cols := some 256 } consensusWitnessFiles.tail none rfl
  · obtain ⟨p, hp, hy, hx⟩ := h
    have hval : specModalPair (specConsensusSamples
        (some { rows := some 256, cols := some 256 } ::
          consensusWitnessFiles.tail)) = some (256, 256) := by decide
    rw [hval] at hp
    have hp' : p = (256, 256) := (Option.some_inj.mp hp).symm
    subst hp'
    exact ⟨r, hr, hy, hx⟩
  · exfalso
    have hval : specModalPair (specConsensusSamples
        (some { rows := some 256, cols := some 256 } ::
          consensusWitnessFiles.tail)) = some (256, 256) := by decide
    rw [hval] at h
    exact Option.noConfusion h.1

/-- First-success evaluation of an ordered list of sources — the spec's
"checking an ordered list of vendor-specific and standard sources,
taking the first that yields a valid value; later sources are not
consulted once one succeeds". -/
def firstSome {α : Type} : List (Option α) → Option α
  | [] => none
  | o :: os =>
      match o with
      | some v => some v
      | none => firstSome os

/-- A `'p'`-prefixed vendor code is never parsed by the multiband text
source (the code requires a leading `'s'`). -/
theorem mbFromPatText_p_none (ds : DFile) (s : String)
    (hs : ds.patModeText = some s) (hp : strStarts s "p" = true) :
    mbFromPatText ds = none := by
  unfold mbFromPatText
  rw [hs]
  dsimp only
  have hns : strStarts s "s" = false := by
    cases hsd : s.data with
    | nil => simp [strStarts, leadsWith, hsd] at hp
    | cons c cs =>
        simp only [strStarts, leadsWith, hsd, Bool.and_eq_true,
          beq_iff_eq] at hp
        simp only [strStarts, leadsWith, hsd]
        rw [← hp.1]
        decide
  rw [if_neg]
  intro hcon
  rw [hns] at hcon
  exact Bool.false_ne_true hcon.1

/-- C4 — `multiband_factor` is resolved by first-success over the five
prioritized sources (embedded-header `ucMultiSliceMode`, then
`lMultiBandFactor`, then the standard out-of-plane parallel-reduction
attribute, then the `'s'`-prefixed vendor text code, then the vendor
numeric array), later sources never being consulted once one yields a
value `≥ 1`; and a `'p'`-prefixed vendor text code is never parsed as
multiband — removing it changes nothing. -/
theorem multiband_priority_chain (ds : DFile) :
    multibandFactor ds =
      firstSome [mbFromCsaMode ds, mbFromCsaBand ds, mbFromStdTag ds,
        mbFromPatText ds, mbFromGE ds] ∧
    ∀ s, ds.patModeText = some s → strStarts s "p" = true →
      multibandFactor ds = multibandFactor { ds with patModeText := none } := by
  constructor
  · unfold multibandFactor
    cases mbFromCsaMode ds <;> cases mbFromCsaBand ds <;>
      cases mbFromStdTag ds <;> cases mbFromPatText ds <;>
      cases mbFromGE ds <;> rfl
  · intro s hs hp
    unfold multibandFactor
    rw [mbFromPatText_p_none ds s hs hp]
    rfl

/-- Witness file for the acceleration-extractor priority: both the CSA
`ucMultiSliceMode = 3` field and the vendor text code `"s2"` present. -/
def mbWitnessBoth : DFile :=
  { csaUcMultiSliceMode := some 3, patModeText := some "s2" }

/-- Witness file carrying only a `'p'`-prefixed vendor text code. -/
def mbWitnessPOnly : DFile :=
  { patModeText := some "p2" }

theorem multiband_priority_chain_witness :
    multibandFactor mbWitnessBoth = some 3 ∧
    multibandFactor mbWitnessPOnly = none := by
  constructor
  · rw [(multiband_priority_chain mbWitnessBoth).1]
    decide
  · rw [(multiband_priority_chain mbWitnessPOnly).2 "p2" rfl (by decide)]
    decide

/-- Counterexample input for the attribute-B claim, scenario 1: not
mosaic, attribute A present with the out-of-range value 99, attribute B
present with the in-range value 4, all higher-priority sources absent. -/
def ipCounterexampleA : DFile :=
  { tagMosaicSlices := some (.int 99), tagSiemensAltB := some (.int 4) }

/-- Counterexample input for the attribute-B claim, scenario 2: a mosaic
series (so the claim says source 3 is skipped) with attribute B present
with the in-range value 4 and every other source absent. -/
def ipCounterexampleB : DFile :=
  { imageType := ["MOSAIC"], tagSiemensAltB := some (.int 4) }

/-- Refutes C8 as stated: with in-plane sources 1-2 failing, private
attribute B holding 4 ∈ [1,16] does NOT yield `inplane_accel_factor = 4`
— neither when attribute A is present with an out-of-range value (the
`elif` never consults B) nor when the series is mosaic (the
`not is_mosaic` guard skips the whole A/B block): the emitted field is
null both times. -/
theorem inplane_srcB_counterexample :
    isMosaic ipCounterexampleA = false ∧
    ipCounterexampleA.tagMosaicSlices = some (.int 99) ∧
    ipRange (.int 99) = none ∧
    ipCounterexampleA.tagSiemensAltB = some (.int 4) ∧
    ipRange (.int 4) = some 4 ∧
    (gatherInfo "s" ⟨[some ipCounterexampleA], none⟩).map
        (fun r => getField r "InplaneAccelFactor") = some (some .null) ∧
    isMosaic ipCounterexampleB = true ∧
    ipCounterexampleB.tagSiemensAltB = some (.int 4) ∧
    (gatherInfo "s" ⟨[some ipCounterexampleB], none⟩).map
        (fun r => getField r "InplaneAccelFactor") = some (some .null) ∧
    Py.null ≠ Py.flt 4 := by
  refine ⟨rfl, rfl, by decide, rfl, by decide, by decide, by decide, rfl,
    by decide, by decide⟩

/-- C8 (amended) — When in-plane sources 1 and 2 fail, the series is not
mosaic, and private attribute A `(0019,100A)` is absent, private
attribute B `(0019,100B)` holding a numeric value in `[1,16]` yields
`inplane_accel_factor` equal to that value. -/
theorem inplane_srcB_amended (fn : String) (ds : DFile)
    (rest : List (Option DFile)) (bv : Option (List Rat)) (b : Py) (q : Rat)
    (hmos : isMosaic ds = false) (hA : ds.tagMosaicSlices = none)
    (hB : ds.tagSiemensAltB = some b) (hq : b.asNum = some q)
    (h1 : 1 ≤ q) (h16 : q ≤ 16)
    (hp1 : ipFromPatText ds = none) (hp2 : ipFromStdTag ds = none) :
    ∃ r, gatherInfo fn ⟨some ds :: rest, bv⟩ = some r ∧
      getField r "InplaneAccelFactor" = some (.flt q) := by
  have hip : inplaneAccelFactor ds false = some q := by
    unfold inplaneAccelFactor ipFromSiemensPrivate
    rw [hp1, hp2, hA, hB]
    simp only [Bool.false_eq_true, if_false, ipRange, hq, h1, h16, and_self,
      if_true]
  refine ⟨_, rfl, ?_⟩
  rw [getField_cleanRecord,
    getField_finalize_other _ _ _ _ _ _ _ (by decide) (by decide) (by decide),
    getField_base_inplane, hmos, hip]
  rfl

/-- Witness series for the amended attribute-B behaviour: non-mosaic,
attribute A absent, attribute B = 4. -/
def ipWitnessBOnly : DFile :=
  { tagSiemensAltB := some (.int 4) }

theorem inplane_srcB_amended_witness :
    ∃ r, gatherInfo "s" ⟨[some ipWitnessBOnly], none⟩ = some r ∧
      getField r "InplaneAccelFactor" = some (.flt 4) :=
  inplane_srcB_amended "s" ipWitnessBOnly [] none (.int 4) 4 rfl rfl rfl rfl
    (by decide) (by decide) rfl rfl

/-- Counterexample input for the all-zero acquisition-matrix claim: a
mosaic file whose acquisition matrix is a present 4-element all-zero
vector and whose `(0051,100b)` fallback tag parses as `160p*160`. -/
def mosaicMatrixCounterexample : DFile :=
  { imageType := ["MOSAIC"], rows := some 800, cols := some 800,
    acquisitionMatrix := some [0, 0, 0, 0], siemensMatrix := some "160p*160" }

/-- Refutes C7 as stated: with a present all-zero 4-element acquisition
matrix the corrector does NOT fall back to the vendor matrix-size tag —
the truthy non-empty vector satisfies `acq_matrix and len(acq_matrix) >=
4`, so the fallback `else` is never reached even though the tag would
parse as `(160, 160)`; the tiled `800 × 800` is emitted. -/
theorem mosaic_matrix_fallback_counterexample :
    isMosaic mosaicMatrixCounterexample = true ∧
    mosaicMatrixCounterexample.acquisitionMatrix = some [0, 0, 0, 0] ∧
    mosaicSiemensFallback (some 800) (some 800) mosaicMatrixCounterexample =
      (some 160, some 160) ∧
    (gatherInfo "s" ⟨[some mosaicMatrixCounterexample], none⟩).map
        (fun r => (getField r "Y_Dim", getField r "X_Dim")) =
      some (some (.int 800), some (.int 800)) ∧
    (Py.int 800 ≠ Py.int 160) := by
  refine ⟨by decide, rfl, by decide, by decide, by decide⟩

theorem getD_zero_of_all_zero (l : List Int) (h : ∀ x ∈ l, x = 0) (i : Nat) :
    l.getD i 0 = 0 := by
  induction l generalizing i with
  | nil => simp [List.getD]
  | cons a t ih =>
      cases i with
      | zero => simpa using h a (by simp)
      | succ j =>
          simpa using ih (fun x hx => h x (by simp [hx])) j

/-- C7 (amended) — On a mosaic series, a present 4-element all-zero
acquisition matrix leaves the tiled (uncorrected) dimensions unchanged
and the vendor matrix-size fallback tag is not consulted; the fallback —
whose successful `"<N>p*<M>"` parse sets the corrected `(rows, cols) =
(N, M)` and whose failure leaves the tiled dimensions — applies only
when the acquisition-matrix attribute is absent (or empty or shorter
than 4 elements). -/
theorem mosaic_matrix_amended (fn : String) (ds : DFile)
    (rest : List (Option DFile)) (bv : Option (List Rat))
    (hmos : isMosaic ds = true) :
    (∀ am, ds.acquisitionMatrix = some am → 4 ≤ am.length →
      (∀ x ∈ am, x = 0) →
      ∃ r, gatherInfo fn ⟨some ds :: rest, bv⟩ = some r ∧
        getField r "Y_Dim" = some (toPyInt? ds.rows) ∧
        getField r "X_Dim" = some (toPyInt? ds.cols)) ∧
    (ds.acquisitionMatrix = none →
      ∃ r, gatherInfo fn ⟨some ds :: rest, bv⟩ = some r ∧
        getField r "Y_Dim" =
          some (toPyInt? (mosaicSiemensFallback ds.rows ds.cols ds).1) ∧
        getField r "X_Dim" =
          some (toPyInt? (mosaicSiemensFallback ds.rows ds.cols ds).2)) := by
  constructor
  · intro am ham hlen hzero
    have hcorr : mosaicCorrect ds.rows ds.cols ds = (ds.rows, ds.cols) := by
      unfold mosaicCorrect
      rw [ham]
      dsimp only
      rw [if_pos hlen, if_neg (by rw [getD_zero_of_all_zero am hzero 0]; omega),
        if_neg (by rw [getD_zero_of_all_zero am hzero 1]; omega)]
    refine ⟨_, rfl, ?_, ?_⟩ <;>
      rw [getField_cleanRecord,
        getField_finalize_other _ _ _ _ _ _ _ (by decide) (by decide)
          (by decide)] <;>
      simp only [hmos, if_true, hcorr] <;>
      first
        | rw [getField_base_ydim]
          simp [clean_scalar _ (toPyInt?_not_list _)]
        | rw [getField_base_xdim]
          simp [clean_scalar _ (toPyInt?_not_list _)]
  · intro ham
    have hcorr : mosaicCorrect ds.rows ds.cols ds =
        mosaicSiemensFallback ds.rows ds.cols ds := by
      unfold mosaicCorrect
      rw [ham]
    refine ⟨_, rfl, ?_, ?_⟩ <;>
      rw [getField_cleanRecord,
        getField_finalize_other _ _ _ _ _ _ _ (by decide) (by decide)
          (by decide)] <;>
      simp only [hmos, if_true, hcorr] <;>
      first
        | rw [getField_base_ydim]
          simp [clean_scalar _ (toPyInt?_not_list _)]
        | rw [getField_base_xdim]
          simp [clean_scalar _ (toPyInt?_not_list _)]

/-- Witness mosaic file with the acquisition matrix absent, exercising
the fallback parse `"160p*160" → (160, 160)`. -/
def mosaicFallbackWitness : DFile :=
  { imageType := ["MOSAIC"], rows := some 800, cols := some 800,
    siemensMatrix := some "160p*160" }

theorem mosaic_matrix_amended_witness :
    (∃ r, gatherInfo "s" ⟨[some mosaicMatrixCounterexample], none⟩ = some r ∧
      getField r "Y_Dim" = some (.int 800) ∧
      getField r "X_Dim" = some (.int 800)) ∧
    (∃ r, gatherInfo "s" ⟨[some mosaicFallbackWitness], none⟩ = some r ∧
      getField r "Y_Dim" = some (.int 160) ∧
      getField r "X_Dim" = some (.int 160)) := by
  constructor
  · obtain ⟨r, hr, hy, hx⟩ :=
      (mosaic_matrix_amended "s" mosaicMatrixCounterexample [] none
        (by decide)).1 [0, 0, 0, 0] rfl (by decide) (by decide)
    exact ⟨r, hr, hy, hx⟩
  · obtain ⟨r, hr, hy, hx⟩ :=
      (mosaic_matrix_amended "s" mosaicFallbackWitness [] none
        (by decide)).2 rfl
    refine ⟨r, hr, ?_, ?_⟩
    · rw [hy]; decide
    · rw [hx]; decide

theorem getField_finalize_numvolumes (r : List (String × Py)) (n : Nat)
    (m : Bool) (nv : Option Py) (nb : Option Nat) (d : Bool) :
    getField (finalizeRecord r n m nv nb d) "NumberOfVolumes" =
      some (match nv with
        | some v => if pyNumGtLit v 1 then Py.lst [v] else Py.lst [.null]
        | none => Py.lst [.null]) := by
  have hstep : getField (finalizeRecord r n m nv nb d) "NumberOfVolumes" =
      getField (finalizeVolumes r n m nv) "NumberOfVolumes" := by
    unfold finalizeRecord
    by_cases hd : d = true <;>
      simp only [hd, if_true, if_false, Bool.false_eq_true] <;>
      exact getField_setField_ne _ _ _ _ (by decide)
  rw [hstep]
  cases nv with
  | none => exact getField_setField_self _ _ _
  | some v =>
      by_cases hgt : pyNumGtLit v 1
      · simp only [finalizeVolumes, hgt, if_true]
        by_cases hm : m = true
        · simp only [hm, if_true]
          exact getField_setField_self _ _ _
        · simp only [hm, if_false, Bool.false_eq_true]
          cases pyFloorDiv (.int (n : Int)) v with
          | none => exact getField_setField_self _ _ _
          | some c =>
              by_cases hc : pyNumGtLit c 0
              · simp only [hc, if_true]
                rw [getField_setField_ne _ _ _ _ (by decide)]
                exact getField_setField_self _ _ _
              · simp only [hc, if_false]
                exact getField_setField_self _ _ _
      · simp only [finalizeVolumes, hgt, if_false]
        exact getField_setField_self _ _ _

theorem getField_finalize_b0s (r : List (String × Py)) (n : Nat) (m : Bool)
    (nv : Option Py) (nb : Option Nat) (d : Bool) :
    getField (finalizeRecord r n m nv nb d) "NumberOfB0s" =
      some (if d then Py.lst [toPyNat? nb] else Py.lst [.null]) := by
  unfold finalizeRecord
  by_cases hd : d = true <;>
    simp only [hd, if_true, if_false, Bool.false_eq_true] <;>
    exact getField_setField_self _ _ _

theorem pyNumGtLit_int (k l : Int) : pyNumGtLit (.int k) l = decide (l < k) := by
  simp only [pyNumGtLit, Py.asNum, gt_iff_lt]
  by_cases h : l < k
  · have hc : ((l : Rat) < (k : Rat)) := by exact_mod_cast h
    simp [h, hc]
  · have hc : ¬ ((l : Rat) < (k : Rat)) := by exact_mod_cast h
    simp [h, hc]

theorem finalizeVolumes_zdim_set (r : List (String × Py)) (n k : Nat)
    (hk : 1 < k) (hq : 0 < n / k) :
    getField (finalizeVolumes r n false (some (.int (k : Int)))) "Z_Dim" =
      some (.lst [.int ((n / k : Nat) : Int)]) := by
  unfold finalizeVolumes
  have hgt : pyNumGtLit (.int (k : Int)) 1 = true := by
    rw [pyNumGtLit_int]
    simp only [decide_eq_true_eq]
    exact_mod_cast hk
  have hdiv : pyFloorDiv (.int (n : Int)) (.int (k : Int)) =
      some (.int ((n / k : Nat) : Int)) := by
    simp only [pyFloorDiv, show ((k : Int) = 0) = False from by simp; omega,
      if_false]
    rw [← Int.ofNat_fdiv]
  have hc : pyNumGtLit (.int ((n / k : Nat) : Int)) 0 = true := by
    rw [pyNumGtLit_int]
    simp only [decide_eq_true_eq]
    exact_mod_cast hq
  simp only [hgt, if_true, Bool.false_eq_true, if_false, hdiv, hc]
  exact getField_setField_self _ _ _

/-- The update stage C performs on a sibling-`.bval` series, read off
from the `some` branch of `volumeResolve` (lines 741-758). -/
theorem volumeResolve_bval (files : List (Option DFile)) (ds : DFile)
    (m : Bool) (stats : Collected) (z : Py) (vals : List Rat) :
    volumeResolve ⟨files, some vals⟩ ds m stats z =
      (some (.int (vals.length : Int)),
       some (vals.countP (fun b => b = 0)), true,
       if 1 < vals.length ∧ vals.length < files.length ∧ ¬m then
         (if 0 < files.length / vals.length then
            Py.int ((files.length / vals.length : Nat) : Int)
          else z)
       else z) := rfl

/-- Counterexample input for C2: a non-mosaic two-file series whose
sibling `.bval` file holds the single numeric value `0`. -/
def bvalSingleCounterexample : SeriesInput :=
  { files := [some { rows := some 64, cols := some 64 },
      some { rows := some 64, cols := some 64 }],
    bvalSibling := some [0] }

/-- Refutes C2 as stated: for a sibling `.bval` list with one value the
claim asserts the record's `NumberOfVolumes` equals the count (1), but
the code emits the field only when the count exceeds 1 — the record
holds null. -/
theorem bval_numvolumes_counterexample :
    (∃ f, bvalSingleCounterexample.files.head? = some (some f) ∧
      isMosaic f = false) ∧
    bvalSingleCounterexample.bvalSibling = some [0] ∧
    ([0] : List Rat).length = 1 ∧
    (gatherInfo "s" bvalSingleCounterexample).map
        (fun r => getField r "NumberOfVolumes") = some (some .null) ∧
    Py.null ≠ Py.int 1 := by
  exact ⟨⟨_, rfl, rfl⟩, rfl, rfl, by decide, by decide⟩

/-- C2 (amended) — For a non-mosaic series with a sibling `.bval` file
of parsed numeric values: `NumberOfB0s` equals the count of zero values
(the series is marked diffusion, which is what makes the field
non-null); `NumberOfVolumes` equals the count of values when that count
exceeds 1 and is absent (null) otherwise; and when the count exceeds 1
the final `Z_Dim` equals `file_count // count` whenever that floor
quotient is positive. -/
theorem bval_sibling_resolution (fn : String) (ds : DFile)
    (rest : List (Option DFile)) (vals : List Rat)
    (hmos : isMosaic ds = false) :
    ∃ r, gatherInfo fn ⟨some ds :: rest, some vals⟩ = some r ∧
      getField r "NumberOfB0s" =
        some (.int ((vals.countP (fun b => b = 0) : Nat) : Int)) ∧
      (1 < vals.length →
        getField r "NumberOfVolumes" = some (.int (vals.length : Int)) ∧
        (0 < (some ds :: rest).length / vals.length →
          getField r "Z_Dim" =
            some (.int (((some ds :: rest).length / vals.length : Nat) :
              Int)))) ∧
      (vals.length ≤ 1 → getField r "NumberOfVolumes" = some .null) := by
  refine ⟨_, rfl, ?_, ?_, ?_⟩
  · rw [getField_cleanRecord, volumeResolve_bval, getField_finalize_b0s]
    simp [toPyNat?, cleanCell, cleanCell2]
  · intro hgt1
    constructor
    · rw [getField_cleanRecord, volumeResolve_bval,
        getField_finalize_numvolumes]
      have h : pyNumGtLit (.int (vals.length : Int)) 1 = true := by
        rw [pyNumGtLit_int]
        simp only [decide_eq_true_eq]
        exact_mod_cast hgt1
      simp [h, cleanCell, cleanCell2]
    · intro hq
      rw [getField_cleanRecord, volumeResolve_bval, finalize_zdim_to_volumes]
      rw [hmos]
      rw [finalizeVolumes_zdim_set _ _ _ hgt1 hq]
      simp [cleanCell, cleanCell2]
  · intro hle
    rw [getField_cleanRecord, volumeResolve_bval,
      getField_finalize_numvolumes]
    have h : pyNumGtLit (.int (vals.length : Int)) 1 = false := by
      rw [pyNumGtLit_int]
      simp only [decide_eq_false_iff_not, not_lt]
      exact_mod_cast hle
    simp [h, cleanCell, cleanCell2]

/-- One synthetic image file of the volume-count example series. -/
def bvalWitnessFile (i : Nat) : DFile :=
  { rows := some 64, cols := some 64, instanceNumber := some (i : Int) }

/-- The spec's synthetic volume-count example: sixty image files and a
sibling b-value list `[0, 0, 1000, 1000, 2000, 2000]`. -/
def bvalWitnessInput : SeriesInput :=
  { files := (List.range 60).map (fun i => some (bvalWitnessFile i)),
    bvalSibling := some [0, 0, 1000, 1000, 2000, 2000] }

theorem bval_sibling_resolution_witness :
    ∃ r, gatherInfo "s" bvalWitnessInput = some r ∧
      getField r "NumberOfVolumes" = some (.int 6) ∧
      getField r "NumberOfB0s" = some (.int 2) ∧
      getField r "Z_Dim" = some (.int 10) := by
  obtain ⟨r, hr, hb0, hgt, _⟩ := bval_sibling_resolution "s"
    (bvalWitnessFile 0)
    (((List.range 60).map (fun i => some (bvalWitnessFile i))).tail)
    [0, 0, 1000, 1000, 2000, 2000] rfl
  obtain ⟨hnv, hz⟩ := hgt (by decide)
  refine ⟨r, ?_, ?_, ?_, ?_⟩
  · rw [← hr]; rfl
  · rw [hnv]; rfl
  · rw [hb0]; rfl
  · rw [hz (by decide)]; rfl

/-- One synthetic file of the C9 counterexample series: description
matches the functional keywords, instance numbers `10, 20, 30` (sparse,
so the maximum far exceeds the slice count) and three distinct slice
positions. -/
def fmriCounterexampleFile (i : Nat) : DFile :=
  { seriesDescription := "fmri run", instanceNumber := some (((i + 1) * 10 : Nat) : Int),
    imagePosition := some [0, 0, (i : Rat)] }

/-- The C9 counterexample series input. -/
def fmriCounterexampleInput : SeriesInput :=
  { files := (List.range 3).map (fun i => some (fmriCounterexampleFile i)) }

/-- Refutes C9 as stated: the series is non-diffusion, functional-named,
with fewer than 2 temporal positions; the maximum collected instance
index (30) exceeds `z_dim` (3) and `30 // 3 = 10 > 1`, so the claim
asserts `NumberOfVolumes = 10` — but the code's guard compares the COUNT
of distinct instance indices (3) against `z_dim`, fails, and leaves the
field absent (null). -/
theorem fmri_maxinstance_counterexample :
    isFunctionalDesc (fmriCounterexampleFile 0).seriesDescription = true ∧
    (collectStats fmriCounterexampleInput.files).bvalueFiles = [] ∧
    (fmriResample fmriCounterexampleInput.files).2.length < 2 ∧
    listMaxInt (fmriResample fmriCounterexampleInput.files).1 = some 30 ∧
    zStep1 (fmriCounterexampleFile 0)
      (collectStats fmriCounterexampleInput.files) 3 = .int 3 ∧
    Int.fdiv 30 (max 1 3) = 10 ∧
    (gatherInfo "s" fmriCounterexampleInput).map
        (fun r => getField r "NumberOfVolumes") = some (some .null) ∧
    Py.null ≠ Py.int 10 := by
  refine ⟨by decide, by decide, by decide, by decide, by decide, by decide,
    by decide, by decide⟩

/-- The fMRI volume estimate with an integer `z_dim` and fewer than two
distinct temporal positions: it fires only when the count of distinct
collected instance numbers exceeds `z_dim`, and then floor-divides the
maximum instance number by `max(1, z_dim)`, accepting only a quotient
`> 1`. -/
theorem fmriEstimate_int (files : List (Option DFile)) (n : Nat) (z : Int)
    (htemp : (fmriResample files).2.length ≤ 1) :
    fmriEstimate files n (.int z) =
      (if z < ((fmriResample files).1.length : Int) then
        (let M : Int :=
          match listMaxInt (fmriResample files).1 with
          | some m => m
          | none => (n : Int);
        if 1 < Int.fdiv M (max 1 z) then some (.int (Int.fdiv M (max 1 z)))
        else none)
      else none) := by
  simp only [fmriEstimate]
  rw [if_neg (by omega)]
  have hgt : pyGtNum ((fmriResample files).1.length : Int) (.int z) =
      some (decide (z < ((fmriResample files).1.length : Int))) := by
    simp only [pyGtNum, Py.asNum, Option.map_some', gt_iff_lt]
    congr 1
    rw [decide_eq_decide]
    exact_mod_cast Iff.rfl
  rw [hgt]
  by_cases h : z < ((fmriResample files).1.length : Int)
  · rw [decide_eq_true h, if_pos h]
    dsimp only
    have hmax : pyMaxOne (.int z) = some (.int (max 1 z)) := by
      simp only [pyMaxOne, Py.asNum, Option.map_some']
      congr 1
      by_cases h1 : 1 < z
      · have hc : ((1 : Rat) < (z : Rat)) := by exact_mod_cast h1
        rw [if_pos hc]
        congr 1
        omega
      · have hc : ¬ ((1 : Rat) < (z : Rat)) := by exact_mod_cast h1
        rw [if_neg hc]
        congr 1
        omega
    rw [hmax]
    dsimp only
    have hfd : pyFloorDiv
        (.int (match listMaxInt (fmriResample files).1 with
          | some m => m
          | none => (n : Int))) (.int (max 1 z)) =
        some (.int (Int.fdiv
          (match listMaxInt (fmriResample files).1 with
            | some m => m
            | none => (n : Int)) (max 1 z))) := by
      simp only [pyFloorDiv]
      rw [if_neg (by omega)]
    rw [hfd]
    dsimp only
    rw [pyNumGtLit_int]
    by_cases h2 : (1 : Int) < Int.fdiv
        (match listMaxInt (fmriResample files).1 with
          | some m => m
          | none => (n : Int)) (max 1 z)
    · rw [decide_eq_true h2, if_pos h2]
      rw [if_pos rfl]
    · rw [decide_eq_false h2, if_neg h2]
      rw [if_neg (by simp)]
  · rw [decide_eq_false h, if_neg h]

/-- Stage C on a series with no sibling `.bval` file, more than one
file, no detected b-values, and a functional-imaging description: the
fMRI estimate decides `num_volumes`; the diffusion flag stays off and
`z_dim` is untouched. -/
theorem volumeResolve_fmri (files : List (Option DFile)) (ds : DFile)
    (m : Bool) (stats : Collected) (z : Py) (hn : 1 < files.length)
    (hdiff : diffusionEstimate files files.length stats = none)
    (hdesc : isFunctionalDesc ds.seriesDescription = true) :
    volumeResolve ⟨files, none⟩ ds m stats z =
      (match fmriEstimate files files.length z with
        | some nv => (some nv, none, false, z)
        | none => (none, none, false, z)) := by
  unfold volumeResolve
  simp only [if_pos hn, hdiff, hdesc, if_true]

/-- C9 (amended) — For a non-diffusion multi-file series whose
description matches a functional-imaging keyword, with fewer than 2
distinct temporal positions, no sibling `.bval` file and an integer
step-1 `z_dim`: when the COUNT of distinct collected instance indices
exceeds `z_dim`, `NumberOfVolumes` becomes `max_instance_index //
max(1, z_dim)`, accepted only when that quotient is `> 1`; otherwise
(quotient `≤ 1`, or count `≤ z_dim`) the field is absent (null). -/
theorem fmri_volumes_amended (fn : String) (ds : DFile)
    (rest : List (Option DFile)) (z : Int) (hn : rest ≠ [])
    (hz : zStep1 ds (collectStats (some ds :: rest))
      (some ds :: rest).length = .int z)
    (hdiff : diffusionEstimate (some ds :: rest) (some ds :: rest).length
      (collectStats (some ds :: rest)) = none)
    (hdesc : isFunctionalDesc ds.seriesDescription = true)
    (htemp : (fmriResample (some ds :: rest)).2.length ≤ 1) :
    ∃ r, gatherInfo fn ⟨some ds :: rest, none⟩ = some r ∧
      ((z < ((fmriResample (some ds :: rest)).1.length : Int) →
        ∀ M, (match listMaxInt (fmriResample (some ds :: rest)).1 with
            | some m => m
            | none => ((some ds :: rest).length : Int)) = M →
          (1 < Int.fdiv M (max 1 z) →
            getField r "NumberOfVolumes" =
              some (.int (Int.fdiv M (max 1 z)))) ∧
          (Int.fdiv M (max 1 z) ≤ 1 →
            getField r "NumberOfVolumes" = some .null)) ∧
       (((fmriResample (some ds :: rest)).1.length : Int) ≤ z →
        getField r "NumberOfVolumes" = some .null)) := by
  have hn1 : 1 < (some ds :: rest).length := by
    simp only [List.length_cons]
    have := List.length_pos.mpr hn
    omega
  have hest := fmriEstimate_int (some ds :: rest) (some ds :: rest).length z
    htemp
  refine ⟨_, rfl, ?_, ?_⟩
  · intro hlt M hM
    rw [if_pos hlt] at hest
    rw [hM] at hest
    constructor
    · intro h2
      rw [if_pos h2] at hest
      rw [getField_cleanRecord, getField_finalize_numvolumes, hz,
        volumeResolve_fmri _ _ _ _ _ hn1 hdiff hdesc, hest]
      have hgt : pyNumGtLit (.int (Int.fdiv M (max 1 z))) 1 = true := by
        rw [pyNumGtLit_int]
        exact decide_eq_true h2
      simp [hgt, cleanCell, cleanCell2]
    · intro h2
      rw [if_neg (by omega)] at hest
      rw [getField_cleanRecord, getField_finalize_numvolumes, hz,
        volumeResolve_fmri _ _ _ _ _ hn1 hdiff hdesc, hest]
      simp [cleanCell, cleanCell2]
  · intro hge
    rw [if_neg (by omega)] at hest
    rw [getField_cleanRecord, getField_finalize_numvolumes, hz,
      volumeResolve_fmri _ _ _ _ _ hn1 hdiff hdesc, hest]
    simp [cleanCell, cleanCell2]

/-- One file of the amended-C9 witness series: functional description,
instance numbers `1..6`, two alternating slice positions (so `z_dim =
2`). -/
def fmriWitnessFile (i : Nat) : DFile :=
  { seriesDescription := "bold run", instanceNumber := some ((i + 1 : Nat) : Int),
    imagePosition := some [0, 0, ((i % 2 : Nat) : Rat)] }

theorem fmri_volumes_amended_witness :
    ∃ r, gatherInfo "s"
        ⟨(List.range 6).map (fun i => some (fmriWitnessFile i)), none⟩ =
          some r ∧
      getField r "NumberOfVolumes" = some (.int 3) := by
  obtain ⟨r, hr, hbranch, _⟩ := fmri_volumes_amended "s" (fmriWitnessFile 0)
    (((List.range 6).map (fun i => some (fmriWitnessFile i))).tail) 2
    (by decide) (by decide) (by decide) (by decide) (by decide)
  obtain ⟨h3, _⟩ := hbranch (by decide) 6 (by decide)
  refine ⟨r, ?_, ?_⟩
  · rw [← hr]; rfl
  · rw [h3 (by decide)]; rfl

/-- A value the cleaning passes turn into a scalar: a one-element
Python-list wrapper around a flat value. -/
def cellWrapped (v : Py) : Prop :=
  ∃ w, v = .lst [w] ∧ w.flat = true

/-- All attributes of a representative file whose raw values are copied
into the output record are flat — scalars or (multi-valued attributes)
flat lists of scalars. -/
def flatOpt (o : Option Py) : Prop :=
  ∀ v, o = some v → v.flat = true

/-- Flatness of every attribute of `ds` that can reach a record cell
uninterpreted. -/
def DFile.flatAttrs (ds : DFile) : Prop :=
  ds.seriesNumber.flat = true ∧ ds.sliceThickness.flat = true ∧
  ds.spacingBetweenSlices.flat = true ∧ ds.inversionTime.flat = true ∧
  ds.echoTime.flat = true ∧ ds.repetitionTime.flat = true ∧
  ds.flipAngle.flat = true ∧ ds.numberOfAverages.flat = true ∧
  ds.pixelBandwidth.flat = true ∧ ds.receivingCoilName.flat = true ∧
  ds.magneticFieldStrength.flat = true ∧
  flatOpt ds.diffusionBValue ∧ flatOpt ds.tagStdBValue ∧
  flatOpt ds.tagSiemensBValue ∧ flatOpt ds.tagPercentPhaseFOV ∧
  flatOpt ds.tagPercentSampling ∧ flatOpt ds.tagMosaicSlices

theorem scalar_flat (v : Py) (h : v.isList = false) : v.flat = true := by
  cases v <;> simp_all [Py.isList, Py.flat]

theorem clean_wrap_flat (v : Py) (h : v.flat = true) :
    (cleanCell2 (cleanCell (.lst [v]))).isList = false := by
  cases v with
  | lst xs =>
      cases xs with
      | nil => rfl
      | cons y ys =>
          have hy : y.isList = false := by
            simp only [Py.flat, List.all_cons, Bool.and_eq_true] at h
            simpa using h.1
          simp only [cleanCell]
          cases y <;> simp_all [cleanCell2, Py.isList]
  | null => rfl
  | int _ => rfl
  | flt _ => rfl
  | str _ => rfl

theorem cleanRecord_scalar (R : List (String × Py))
    (h : ∀ kv ∈ R, cellWrapped kv.2) :
    ∀ kv ∈ cleanRecord R, (kv.2).isList = false := by
  intro kv hkv
  unfold cleanRecord at hkv
  obtain ⟨kv0, hkv0, rfl⟩ := List.mem_map.mp hkv
  obtain ⟨w, hw, hwf⟩ := h kv0 hkv0
  simp only [hw]
  exact clean_wrap_flat w hwf

theorem toPyInt?_flat (o : Option Int) : (toPyInt? o).flat = true := by
  cases o <;> rfl

theorem toPyRat?_flat (o : Option Rat) : (toPyRat? o).flat = true := by
  cases o <;> rfl

theorem toPyNat?_flat (o : Option Nat) : (toPyNat? o).flat = true := by
  cases o <;> rfl

theorem optStrVal_flat (o : Option String) : (optStrVal o).flat = true := by
  cases o <;> rfl

theorem optPyVal_flat (o : Option Py) (h : flatOpt o) :
    (optPyVal o).flat = true := by
  cases o with
  | none => rfl
  | some v => exact h v rfl

theorem voxelAt_flat (ds : DFile) (i : Nat) : (voxelAt ds i).flat = true := by
  unfold voxelAt
  cases ds.pixelSpacing with
  | none => rfl
  | some l =>
      dsimp only
      split <;> rfl

theorem fileBval_flat (ds : DFile) (h1 : flatOpt ds.diffusionBValue)
    (h2 : flatOpt ds.tagStdBValue) (h3 : flatOpt ds.tagSiemensBValue) :
    (optPyVal (fileBval ds)).flat = true := by
  unfold fileBval
  cases hv : ds.diffusionBValue with
  | some v => exact h1 v hv
  | none =>
      cases hw : ds.tagStdBValue with
      | some w => exact h2 w hw
      | none =>
          cases hx : ds.tagSiemensBValue with
          | some x => exact h3 x hx
          | none => rfl

theorem base_cells (fn : String) (ds : DFile) (r c : Option Int) (z : Py)
    (mb ip : Option Rat) (hds : ds.flatAttrs) (hz : z.flat = true) :
    ∀ kv ∈ baseRecord fn ds r c z mb ip, cellWrapped kv.2 := by
  obtain ⟨h1, h2, h3, h4, h5, h6, h7, h8, h9, h10, h11, hb1, hb2, hb3, hpf,
    hps, _⟩ := hds
  intro kv hkv
  simp only [baseRecord, List.mem_cons, List.not_mem_nil, or_false] at hkv
  rcases hkv with rfl|rfl|rfl|rfl|rfl|rfl|rfl|rfl|rfl|rfl|rfl|rfl|rfl|rfl|
    rfl|rfl|rfl|rfl|rfl|rfl|rfl|rfl|rfl|rfl|rfl|rfl|rfl|rfl|rfl
  · exact ⟨_, rfl, h1⟩
  · exact ⟨_, rfl, rfl⟩
  · exact ⟨_, rfl, rfl⟩
  · exact ⟨_, rfl, rfl⟩
  · exact ⟨_, rfl, toPyInt?_flat _⟩
  · exact ⟨_, rfl, toPyInt?_flat _⟩
  · exact ⟨_, rfl, hz⟩
  · exact ⟨_, rfl, voxelAt_flat _ _⟩
  · exact ⟨_, rfl, voxelAt_flat _ _⟩
  · exact ⟨_, rfl, h2⟩
  · exact ⟨_, rfl, h3⟩
  · exact ⟨_, rfl, h4⟩
  · exact ⟨_, rfl, h5⟩
  · exact ⟨_, rfl, h6⟩
  · exact ⟨_, rfl, h7⟩
  · exact ⟨_, rfl, rfl⟩
  · exact ⟨_, rfl, rfl⟩
  · exact ⟨_, rfl, rfl⟩
  · exact ⟨_, rfl, fileBval_flat ds hb1 hb2 hb3⟩
  · exact ⟨_, rfl, toPyRat?_flat _⟩
  · exact ⟨_, rfl, toPyRat?_flat _⟩
  · exact ⟨_, rfl, optStrVal_flat _⟩
  · exact ⟨_, rfl, h8⟩
  · exact ⟨_, rfl, h9⟩
  · exact ⟨_, rfl, h10⟩
  · exact ⟨_, rfl, optStrVal_flat _⟩
  · exact ⟨_, rfl, h11⟩
  · exact ⟨_, rfl, optPyVal_flat _ hpf⟩
  · exact ⟨_, rfl, optPyVal_flat _ hps⟩

theorem setField_cells (R : List (String × Py)) (k : String) (w : Py)
    (hR : ∀ kv ∈ R, cellWrapped kv.2) (hw : cellWrapped w) :
    ∀ kv ∈ setField R k w, cellWrapped kv.2 := by
  intro kv hkv
  unfold setField at hkv
  split at hkv
  · obtain ⟨kv0, hkv0, rfl⟩ := List.mem_map.mp hkv
    by_cases h : kv0.1 = k
    · simp only [h, if_pos rfl]
      exact hw
    · simp only [if_neg h]
      exact hR kv0 hkv0
  · rcases List.mem_append.mp hkv with h | h
    · exact hR _ h
    · simp only [List.mem_singleton] at h
      subst h
      exact hw

theorem finalizeVolumes_cells (R : List (String × Py)) (n : Nat) (m : Bool)
    (nv : Option Py) (hR : ∀ kv ∈ R, cellWrapped kv.2)
    (hnv : ∀ v, nv = some v → v.isList = false) :
    ∀ kv ∈ finalizeVolumes R n m nv, cellWrapped kv.2 := by
  cases nv with
  | none => exact setField_cells _ _ _ hR ⟨.null, rfl, rfl⟩
  | some v =>
      by_cases hgt : pyNumGtLit v 1
      · simp only [finalizeVolumes, hgt, if_true]
        have hr' := setField_cells R "NumberOfVolumes" (.lst [v]) hR
          ⟨v, rfl, scalar_flat v (hnv v rfl)⟩
        by_cases hm : m = true
        · simp only [hm, if_true]
          exact hr'
        · simp only [hm, if_false, Bool.false_eq_true]
          cases pyFloorDiv (.int (n : Int)) v with
          | none => exact hr'
          | some cq =>
              by_cases hc : pyNumGtLit cq 0
              · simp only [hc, if_true]
                exact setField_cells _ _ _ hr'
                  ⟨cq, rfl, scalar_flat cq (pyNumGtLit_scalar cq 0 hc).1⟩
              · simp only [hc, if_false]
                exact hr'
      · simp only [finalizeVolumes, hgt, if_false]
        exact setField_cells _ _ _ hR ⟨.null, rfl, rfl⟩

theorem finalizeRecord_cells (R : List (String × Py)) (n : Nat) (m : Bool)
    (nv : Option Py) (nb : Option Nat) (d : Bool)
    (hR : ∀ kv ∈ R, cellWrapped kv.2)
    (hnv : ∀ v, nv = some v → v.isList = false) :
    ∀ kv ∈ finalizeRecord R n m nv nb d, cellWrapped kv.2 := by
  unfold finalizeRecord
  have hvol := finalizeVolumes_cells R n m nv hR hnv
  by_cases hd : d = true <;>
    simp only [hd, if_true, if_false, Bool.false_eq_true]
  · exact setField_cells _ _ _ hvol ⟨_, rfl, toPyNat?_flat _⟩
  · exact setField_cells _ _ _ hvol ⟨.null, rfl, rfl⟩

theorem fmriEstimate_scalar (files : List (Option DFile)) (n : Nat) (z : Py) :
    ∀ v, fmriEstimate files n z = some v → v.isList = false := by
  intro v h
  simp only [fmriEstimate] at h
  split at h
  · rw [← Option.some_inj.mp h]
    rfl
  · split at h
    · split at h
      · split at h
        · split at h
          · next hcond =>
              rw [← Option.some_inj.mp h]
              exact (pyNumGtLit_scalar _ _ hcond).1
          · simp at h
        · simp at h
      · simp at h
    · simp at h
    · simp at h

theorem diffusionEstimate_scalar (files : List (Option DFile)) (n : Nat)
    (stats : Collected) :
    ∀ p, diffusionEstimate files n stats = some p → p.1.isList = false := by
  intro p h
  simp only [diffusionEstimate] at h
  split at h <;> split at h <;>
    try exact Option.noConfusion h
  all_goals
    by_cases hn : n ≤ 500
    · rw [if_pos hn] at h
      rw [← Option.some_inj.mp h]
      rfl
    · rw [if_neg hn] at h
      rw [← Option.some_inj.mp h]
      rfl

theorem volumeResolve_nv_scalar (inp : SeriesInput) (ds : DFile) (m : Bool)
    (stats : Collected) (z : Py) :
    ∀ v, (volumeResolve inp ds m stats z).1 = some v → v.isList = false := by
  intro v h
  unfold volumeResolve at h
  rcases hbv : inp.bvalSibling with _ | vals
  · rw [hbv] at h
    dsimp only at h
    by_cases hn : 1 < inp.files.length
    · rw [if_pos hn] at h
      rcases hde : diffusionEstimate inp.files inp.files.length stats
          with _ | ⟨nv, nb0⟩
      · rw [hde] at h
        dsimp only at h
        by_cases hfd : isFunctionalDesc ds.seriesDescription = true
        · rw [if_pos hfd] at h
          rcases hfe : fmriEstimate inp.files inp.files.length z with _ | nv
          · rw [hfe] at h
            dsimp only at h
            exact Option.noConfusion h
          · rw [hfe] at h
            dsimp only at h
            rw [← Option.some_inj.mp h]
            exact fmriEstimate_scalar _ _ _ nv hfe
        · rw [if_neg hfd] at h
          dsimp only at h
          exact Option.noConfusion h
      · rw [hde] at h
        dsimp only at h
        rw [← Option.some_inj.mp h]
        exact diffusionEstimate_scalar _ _ _ (nv, nb0) hde
    · rw [if_neg hn] at h
      dsimp only at h
      exact Option.noConfusion h
  · rw [hbv] at h
    dsimp only at h
    rw [← Option.some_inj.mp h]
    rfl

theorem volumeResolve_z_flat (inp : SeriesInput) (ds : DFile) (m : Bool)
    (stats : Collected) (z : Py) (hz : z.flat = true) :
    ((volumeResolve inp ds m stats z).2.2.2).flat = true := by
  unfold volumeResolve
  rcases hbv : inp.bvalSibling with _ | vals
  · dsimp only
    by_cases hn : 1 < inp.files.length
    · rw [if_pos hn]
      rcases hde : diffusionEstimate inp.files inp.files.length stats
          with _ | ⟨nv, nb0⟩
      · dsimp only
        by_cases hfd : isFunctionalDesc ds.seriesDescription = true
        · rw [if_pos hfd]
          rcases hfe : fmriEstimate inp.files inp.files.length z with _ | nv
          · exact hz
          · exact hz
        · rw [if_neg hfd]
          exact hz
      · exact hz
    · rw [if_neg hn]
      exact hz
  · dsimp only
    split
    · split
      · rfl
      · exact hz
    · exact hz

theorem zStep1_flat (ds : DFile) (stats : Collected) (n : Nat)
    (h : flatOpt ds.tagMosaicSlices) : (zStep1 ds stats n).flat = true := by
  rcases zStep1_cases ds stats n with ⟨k, hk⟩ | ⟨v, htag, _, hzv, _⟩
  · rw [hk]; rfl
  · rw [hzv]; exact h v htag

/-- C6 — Every processed series (non-empty, readable representative)
produces exactly one record, and every field of the emitted record is a
scalar — never a list, tuple or other sequence — even when the
underlying source attributes are multi-valued (flat lists of scalars). -/
theorem record_scalar_cells (fn : String) (ds : DFile)
    (rest : List (Option DFile)) (bv : Option (List Rat))
    (hds : ds.flatAttrs) :
    ∃ r, gatherInfo fn ⟨some ds :: rest, bv⟩ = some r ∧
      ∀ kv ∈ r, (kv.2).isList = false := by
  refine ⟨_, rfl, ?_⟩
  apply cleanRecord_scalar
  apply finalizeRecord_cells
  · apply base_cells _ _ _ _ _ _ _ hds
    apply volumeResolve_z_flat
    apply zStep1_flat
    exact hds.2.2.2.2.2.2.2.2.2.2.2.2.2.2.2.2
  · apply volumeResolve_nv_scalar

/-- Witness representative carrying a multi-valued (flat list) image
type and a multi-valued numeric attribute. -/
def scalarWitnessFile : DFile :=
  { rows := some 64, cols := some 64,
    seriesNumber := .int 7,
    diffusionBValue := some (.lst [.flt 0, .flt 1000]),
    numberOfAverages := .lst [.int 1, .int 2] }

theorem record_scalar_cells_witness :
    ∃ r, gatherInfo "s" ⟨[some scalarWitnessFile], none⟩ = some r ∧
      ∀ kv ∈ r, (kv.2).isList = false := by
  apply record_scalar_cells
  refine ⟨rfl, rfl, rfl, rfl, rfl, rfl, rfl, rfl, rfl, rfl, rfl, ?_, ?_,
    ?_, ?_, ?_, ?_⟩ <;>
    intro v hv <;> cases hv <;> rfl
